import Mathlib

/-!
Verification of the OfflineQuizWhiz generation-and-validation pipeline.

Shallow embedding of the core components described in the repository:
the Question data model and its validation gate (src/src/models/models.py),
the LLM response parser (src/mcq_generator.py), the bounded generation
loop (src/mcq_generator.py), the question bank (src/paper_builder.py),
the section builder and paper assembler (src/paper_builder.py), and the
per-section difficulty-count partition (src/src/models/models.py).

Python strings are modelled as Lean `String`; `str.strip()` as
`String.trim`, `str.lower()`/`str.upper()` as `String.toLower`/
`String.toUpper` (the source data is ASCII-centric); Python `set` as
`Finset String`; Python dicts appearing as configuration as ordered
association lists, mirroring insertion order.  External collaborators
(the LLM client, the multimodal generator, uuid generation) are injected
function parameters, exactly as they are injected dependencies in the
source.
-/

namespace QuizWhiz

/-- Difficulty levels, from `DifficultyLevel` in src/src/models/models.py. -/
inductive DifficultyLevel where
  | EASY
  | MEDIUM
  | HARD
deriving DecidableEq

/-- The `.value` attribute of each enum member. -/
def DifficultyLevel.value : DifficultyLevel → String
  | .EASY => "Easy"
  | .MEDIUM => "Medium"
  | .HARD => "Hard"

/-- Lookup by enum member name, modelling `DifficultyLevel[name]`
(a failed lookup raises `KeyError`, modelled as `none`). -/
def DifficultyLevel.fromName (s : String) : Option DifficultyLevel :=
  if s = "EASY" then some .EASY
  else if s = "MEDIUM" then some .MEDIUM
  else if s = "HARD" then some .HARD
  else none

/-- The `Question` dataclass of src/src/models/models.py, restricted to the
fields the verified components read or write.  `question_id` is the
uuid-generated identifier; generation of fresh identifiers is modelled by an
injected identifier source where questions are constructed. -/
structure Question where
  question_id : String
  test_section : String
  main_topic : String
  subtopic : String
  difficulty : DifficultyLevel
  question_text_en : String
  option_a_en : String
  option_b_en : String
  option_c_en : String
  option_d_en : String
  correct_answer : String
  explanation : String
  references : List String
deriving DecidableEq

/-- The four option texts after `.strip().lower()`, in order, as built by
`Question.validate` for its duplicate check. -/
def Question.optionsNormalized (q : Question) : List String :=
  [(q.option_a_en.trim).toLower, (q.option_b_en.trim).toLower,
   (q.option_c_en.trim).toLower, (q.option_d_en.trim).toLower]

/-- `Question.validate` from src/src/models/models.py lines 115-163: collects
all violation messages in source order, never short-circuiting. -/
def Question.validate (q : Question) : List String :=
  (if q.question_text_en.trim = "" then ["Question text is empty"] else [])
  ++ (if q.option_a_en.trim = "" then ["Option A is empty"] else [])
  ++ (if q.option_b_en.trim = "" then ["Option B is empty"] else [])
  ++ (if q.option_c_en.trim = "" then ["Option C is empty"] else [])
  ++ (if q.option_d_en.trim = "" then ["Option D is empty"] else [])
  ++ (if q.correct_answer ∈ (["A", "B", "C", "D"] : List String) then []
      else ["Correct answer must be A, B, C, or D (got \x27" ++ q.correct_answer ++ "\x27)"])
  ++ (if q.explanation.trim = "" then ["Explanation is empty"]
      else if (q.explanation.trim).length < 20 then
        ["Explanation is too short (< 20 characters)"]
      else [])
  ++ (if q.optionsNormalized.Nodup then [] else ["Options contain duplicates"])
  ++ (if q.test_section.trim = "" then ["Test section is empty"] else [])
  ++ (if q.main_topic.trim = "" then ["Main topic is empty"] else [])

/-- `Question.is_valid` from src/src/models/models.py. -/
def Question.is_valid (q : Question) : Bool := q.validate.isEmpty

/-- The ten invariants `Question.validate` checks, indexed in the order the
source checks them (indices 10 and above hold trivially, so quantifying over
all naturals quantifies over exactly these ten). -/
def questionInvariant (i : Nat) (q : Question) : Prop :=
  match i with
  | 0 => q.question_text_en.trim ≠ ""
  | 1 => q.option_a_en.trim ≠ ""
  | 2 => q.option_b_en.trim ≠ ""
  | 3 => q.option_c_en.trim ≠ ""
  | 4 => q.option_d_en.trim ≠ ""
  | 5 => q.correct_answer ∈ (["A", "B", "C", "D"] : List String)
  | 6 => q.explanation.trim ≠ "" ∧ 20 ≤ (q.explanation.trim).length
  | 7 => q.optionsNormalized.Nodup
  | 8 => q.test_section.trim ≠ ""
  | 9 => q.main_topic.trim ≠ ""
  | _ => True

instance (i : Nat) (q : Question) : Decidable (questionInvariant i q) :=
  match i with
  | 0 => inferInstanceAs (Decidable (q.question_text_en.trim ≠ ""))
  | 1 => inferInstanceAs (Decidable (q.option_a_en.trim ≠ ""))
  | 2 => inferInstanceAs (Decidable (q.option_b_en.trim ≠ ""))
  | 3 => inferInstanceAs (Decidable (q.option_c_en.trim ≠ ""))
  | 4 => inferInstanceAs (Decidable (q.option_d_en.trim ≠ ""))
  | 5 => inferInstanceAs (Decidable (q.correct_answer ∈ (["A", "B", "C", "D"] : List String)))
  | 6 => inferInstanceAs (Decidable (q.explanation.trim ≠ "" ∧ 20 ≤ (q.explanation.trim).length))
  | 7 => inferInstanceAs (Decidable (q.optionsNormalized.Nodup))
  | 8 => inferInstanceAs (Decidable (q.test_section.trim ≠ ""))
  | 9 => inferInstanceAs (Decidable (q.main_topic.trim ≠ ""))
  | _ + 10 => .isTrue trivial

/-- The violation message `Question.validate` emits for invariant `i`. -/
def violationMessage (i : Nat) (q : Question) : String :=
  match i with
  | 0 => "Question text is empty"
  | 1 => "Option A is empty"
  | 2 => "Option B is empty"
  | 3 => "Option C is empty"
  | 4 => "Option D is empty"
  | 5 => "Correct answer must be A, B, C, or D (got \x27" ++ q.correct_answer ++ "\x27)"
  | 6 => if q.explanation.trim = "" then "Explanation is empty"
         else "Explanation is too short (< 20 characters)"
  | 7 => "Options contain duplicates"
  | 8 => "Test section is empty"
  | 9 => "Main topic is empty"
  | _ => ""

/-! ## Section Builder topic allocation (src/paper_builder.py lines 276-284) -/
/-- `questions_per_topic = count // len(section.topics)`. -/
def questions_per_topic (count numTopics : Nat) : Nat := count / numTopics

/-- `topic_count = questions_per_topic + (1 if i < remainder else 0)` for the
topic at position `i`, where `remainder = count % len(section.topics)`. -/
def topic_count (count numTopics i : Nat) : Nat :=
  questions_per_topic count numTopics + if i < count % numTopics then 1 else 0

/-! ## PaperConfig difficulty partition (src/src/models/models.py lines 227-249) -/
/-- `PaperConfig` from src/src/models/models.py: the paper-wide
configuration.  Difficulty percentages are modelled exactly as rationals;
`section_distribution` and `difficulty_distribution` are Python dicts,
modelled as insertion-ordered association lists with unique keys. -/
structure PaperConfig where
  paper_name : String
  subject : String
  total_questions : Int
  section_distribution : List (String × Int)
  difficulty_distribution : List (String × Rat)

/-- Python `int(x)`: truncation toward zero, as applied to
`section_count * percentage`. -/
def int_trunc (x : Rat) : Int := Int.tdiv x.num (Int.ofNat x.den)

/-- The loop body of `get_difficulty_counts`: walk the distribution in order
carrying `remaining`; the entry whose key is the distribution's last key
receives `remaining`, every other entry receives its truncated share which is
subtracted from `remaining`. -/
def get_difficulty_counts_go (lastKey : String) (section_count : Int) :
    List (String × Rat) → Int → List (String × Int)
  | [], _ => []
  | (d, p) :: rest, remaining =>
    if d = lastKey then
      (d, remaining) :: get_difficulty_counts_go lastKey section_count rest remaining
    else
      (d, int_trunc (section_count * p)) ::
        get_difficulty_counts_go lastKey section_count rest
          (remaining - int_trunc (section_count * p))

/-- `PaperConfig.get_difficulty_counts` from src/src/models/models.py lines
227-249.  An empty distribution yields an empty counts dict (the loop body,
and with it the last-key lookup, never runs). -/
def PaperConfig.get_difficulty_counts (cfg : PaperConfig) (section_count : Int) :
    List (String × Int) :=
  match cfg.difficulty_distribution.getLast? with
  | none => []
  | some (lastKey, _) =>
    get_difficulty_counts_go lastKey section_count cfg.difficulty_distribution section_count

/-! ## JSON model

`_parse_llm_response` (src/mcq_generator.py lines 159-202) delegates JSON
decoding to Python's `json.loads`.  The decoder is modelled here over
`List Char`: values are `JValue`; number tokens are kept as their raw
lexemes (their numeric value is never consulted by the verified code);
objects are insertion-ordered key/value lists where a duplicate key
overwrites the value in place, as a Python dict does.  The decoder is
strict, as `json.loads` is by default: unescaped control characters in
strings, trailing commas and trailing garbage are all rejected. -/
inductive JValue where
  | null : JValue
  | bool (b : Bool) : JValue
  | num (lexeme : String) : JValue
  | str (s : String) : JValue
  | arr (items : List JValue) : JValue
  | obj (pairs : List (String × JValue)) : JValue
deriving BEq

/-- JSON whitespace, as in the decoder's `[ \t\n\r]*` skip set. -/
def jsonWs (c : Char) : Bool :=
  c = ' ' || c = '\t' || c = '\n' || c = '\r'

def skipWs (cs : List Char) : List Char := cs.dropWhile jsonWs

/-- Hex digit value for `\uXXXX` escapes. -/
def hexVal (c : Char) : Option Nat :=
  if c.isDigit then some (c.toNat - 48)
  else if 97 ≤ c.toNat ∧ c.toNat ≤ 102 then some (c.toNat - 87)
  else if 65 ≤ c.toNat ∧ c.toNat ≤ 70 then some (c.toNat - 55)
  else none

/-- Single-character escapes accepted after a backslash. -/
def escMap (c : Char) : Option Char :=
  if c = '"' then some '"'
  else if c = '\\' then some '\\'
  else if c = '/' then some '/'
  else if c = 'b' then some (Char.ofNat 8)
  else if c = 'f' then some (Char.ofNat 12)
  else if c = 'n' then some '\n'
  else if c = 'r' then some '\r'
  else if c = 't' then some '\t'
  else none

/-- Combine four hex digits. -/
def hex4 (a b c d : Char) : Option Nat :=
  match hexVal a, hexVal b, hexVal c, hexVal d with
  | some va, some vb, some vc, some vd => some (4096 * va + 256 * vb + 16 * vc + vd)
  | _, _, _, _ => none

mutual

/-- String body scanner: the input is everything after the opening quote;
returns the decoded characters and the rest after the closing quote.
Surrogate `\uXXXX` pairs are combined; a lone surrogate is rejected (a Lean
`Char` cannot carry one; Python would keep it, a modelling gap confined to
lone-surrogate inputs). -/
def pStringChars : List Char → Option (List Char × List Char)
  | [] => none
  | c :: rest =>
    if c = '"' then some ([], rest)
    else if c = '\\' then pEscape rest
    else if c.toNat < 32 then none
    else (pStringChars rest).map (fun p => (c :: p.1, p.2))

/-- Decode the escape sequence after a backslash, then the rest of the
string body. -/
def pEscape : List Char → Option (List Char × List Char)
  | [] => none
  | e :: rest₂ =>
    if e = 'u' then pUnicode rest₂
    else
      match escMap e with
      | some d => (pStringChars rest₂).map (fun p => (d :: p.1, p.2))
      | none => none

/-- Decode the four hex digits of a `\uXXXX` escape, then the rest. -/
def pUnicode : List Char → Option (List Char × List Char)
  | h1 :: h2 :: h3 :: h4 :: rest₃ =>
    match hex4 h1 h2 h3 h4 with
    | none => none
    | some n =>
      if 55296 ≤ n ∧ n < 56320 then pSurrogate n rest₃
      else if 56320 ≤ n ∧ n < 57344 then none
      else (pStringChars rest₃).map (fun p => (Char.ofNat n :: p.1, p.2))
  | _ => none

/-- Decode the low half of a surrogate pair, then the rest. -/
def pSurrogate (n : Nat) : List Char → Option (List Char × List Char)
  | a :: b :: q1 :: q2 :: q3 :: q4 :: rest₄ =>
    if a = '\\' ∧ b = 'u' then
      match hex4 q1 q2 q3 q4 with
      | none => none
      | some m =>
        if 56320 ≤ m ∧ m < 57344 then
          (pStringChars rest₄).map (fun p =>
            (Char.ofNat (65536 + (n - 55296) * 1024 + (m - 56320)) :: p.1, p.2))
        else none
    else none
  | _ => none

end

/-- Integer part of the number token: `(0|[1-9]\d*)`. -/
def chompInt : List Char → Option (List Char × List Char)
  | [] => none
  | c :: t =>
    if c = '0' then some (['0'], t)
    else if c.isDigit then some (c :: t.takeWhile Char.isDigit, t.dropWhile Char.isDigit)
    else none

/-- Optional fraction part `(\.\d+)?`, backtracking like the regex does. -/
def chompFrac : List Char → (List Char × List Char)
  | '.' :: c :: t =>
    if c.isDigit then ('.' :: c :: t.takeWhile Char.isDigit, t.dropWhile Char.isDigit)
    else ([], '.' :: c :: t)
  | cs => ([], cs)

/-- Optional exponent part `([eE][-+]?\d+)?`, backtracking like the regex. -/
def chompExp (cs : List Char) : (List Char × List Char) :=
  match cs with
  | e :: t =>
    if e = 'e' ∨ e = 'E' then
      match t with
      | s :: t₂ =>
        if s = '+' ∨ s = '-' then
          match t₂ with
          | d :: t₃ =>
            if d.isDigit then
              (e :: s :: d :: t₃.takeWhile Char.isDigit, t₃.dropWhile Char.isDigit)
            else ([], cs)
          | [] => ([], cs)
        else if s.isDigit then
          (e :: s :: t₂.takeWhile Char.isDigit, t₂.dropWhile Char.isDigit)
        else ([], cs)
      | [] => ([], cs)
    else ([], cs)
  | [] => ([], cs)

/-- Integer part onward: fraction and exponent are optional with regex
backtracking. -/
def pNumTail (sign : List Char) (cs : List Char) : Option (List Char × List Char) :=
  match chompInt cs with
  | none => none
  | some (ip, r₁) =>
    let fr := chompFrac r₁
    let ex := chompExp fr.2
    some (sign ++ ip ++ fr.1 ++ ex.1, ex.2)

/-- The number token scanner, `NUMBER_RE.match`: returns the matched lexeme
and the rest, or `none` when no number token starts here. -/
def pNumber (cs : List Char) : Option (List Char × List Char) :=
  match cs with
  | '-' :: t => pNumTail ['-'] t
  | t => pNumTail [] t

/-- Insert into a decoded object as a Python dict insertion: a duplicate key
overwrites the value at the key's original position. -/
def objInsert : List (String × JValue) → String → JValue → List (String × JValue)
  | [], k, v => [(k, v)]
  | (k0, v0) :: rest, k, v =>
    if k0 = k then (k0, v) :: rest else (k0, v0) :: objInsert rest k v

/-- Fold the scanned key/value pairs through dict insertion. -/
def dedupPairs (ps : List (String × JValue)) : List (String × JValue) :=
  ps.foldl (fun acc kv => objInsert acc kv.1 kv.2) []

mutual

/-- Scan one JSON value starting at the first non-whitespace character,
following the dispatch order of Python's scanner.  `fuel` strictly decreases
on every mutual call; `json_loads` supplies more than any input can use. -/
def pValue : Nat → List Char → Option (JValue × List Char)
  | 0, _ => none
  | fuel + 1, cs =>
    match skipWs cs with
    | [] => none
    | c :: rest =>
      if c = '"' then
        (pStringChars rest).map (fun p => (.str (String.mk p.1), p.2))
      else if c = '{' then
        match skipWs rest with
        | '}' :: r => some (.obj [], r)
        | _ => (pPairsLoop fuel rest).map (fun p => (.obj (dedupPairs p.1), p.2))
      else if c = '[' then
        match skipWs rest with
        | ']' :: r => some (.arr [], r)
        | _ => (pItemsLoop fuel rest).map (fun p => (.arr p.1, p.2))
      else if c = 'n' then
        if ['u', 'l', 'l'].isPrefixOf rest then some (.null, rest.drop 3) else none
      else if c = 't' then
        if ['r', 'u', 'e'].isPrefixOf rest then some (.bool true, rest.drop 3) else none
      else if c = 'f' then
        if ['a', 'l', 's', 'e'].isPrefixOf rest then some (.bool false, rest.drop 4) else none
      else if c = '-' ∨ c.isDigit then
        match pNumber (c :: rest) with
        | some (lx, r) => some (.num (String.mk lx), r)
        | none =>
          if c = '-' ∧ ['I', 'n', 'f', 'i', 'n', 'i', 't', 'y'].isPrefixOf rest then
            some (.num "-Infinity", rest.drop 8)
          else none
      else if c = 'N' then
        if ['a', 'N'].isPrefixOf rest then some (.num "NaN", rest.drop 2) else none
      else if c = 'I' then
        if ['n', 'f', 'i', 'n', 'i', 't', 'y'].isPrefixOf rest then
          some (.num "Infinity", rest.drop 7)
        else none
      else none

/-- One-or-more array items: value, then `]` to close or `,` and more items
(so a comma directly before `]` is a parse error, as in the strict decoder). -/
def pItemsLoop : Nat → List Char → Option (List JValue × List Char)
  | 0, _ => none
  | fuel + 1, cs =>
    match pValue fuel cs with
    | none => none
    | some (v, r₁) =>
      match skipWs r₁ with
      | ']' :: r₂ => some ([v], r₂)
      | ',' :: r₂ => (pItemsLoop fuel r₂).map (fun p => (v :: p.1, p.2))
      | _ => none

/-- One-or-more object members: `"key" : value`, then `}` or `,` and more. -/
def pPairsLoop : Nat → List Char → Option (List (String × JValue) × List Char)
  | 0, _ => none
  | fuel + 1, cs =>
    match skipWs cs with
    | '"' :: rest =>
      match pStringChars rest with
      | none => none
      | some (key, r₁) =>
        match skipWs r₁ with
        | ':' :: r₂ =>
          match pValue fuel r₂ with
          | none => none
          | some (v, r₃) =>
            match skipWs r₃ with
            | '}' :: r₄ => some ([(String.mk key, v)], r₄)
            | ',' :: r₄ =>
              (pPairsLoop fuel r₄).map (fun p => ((String.mk key, v) :: p.1, p.2))
            | _ => none
        | _ => none
    | _ => none

end

/-- `json.loads` on a character list: scan one value, then require only
whitespace to remain ("Extra data" otherwise). -/
def json_loads (cs : List Char) : Option JValue :=
  match pValue (2 * cs.length + 2) cs with
  | some (v, rest) => if skipWs rest = [] then some v else none
  | none => none

/-! ## Response parser (src/mcq_generator.py lines 159-220) -/
/-- `re.search` for the greedy pattern `open .* close` with DOTALL: the match,
when one exists, runs from the first `open` to the last `close` after it. -/
def findGreedy (opener closer : Char) (cs : List Char) : Option (List Char) :=
  let pre := cs.takeWhile (fun c => c != opener)
  let rest := cs.drop pre.length
  match rest with
  | [] => none
  | _ :: _ =>
    let r := rest.reverse.dropWhile (fun c => c != closer)
    match r with
    | [] => none
    | _ :: _ => some r.reverse

/-- Python `\s` on the repair regex (ASCII whitespace classes). -/
def pyWs (c : Char) : Bool :=
  c = ' ' || c = '\t' || c = '\n' || c = '\r' || c = Char.ofNat 11 || c = Char.ofNat 12

/-- The left-to-right `re.sub` scan of `_clean_json`, resuming after each
replacement.  Every step consumes at least one character, so any fuel above
the input length is enough; `_clean_json` supplies it. -/
def cleanScan : Nat → List Char → List Char
  | 0, cs => cs
  | _ + 1, [] => []
  | fuel + 1, c :: rest =>
    if c = ',' then
      match rest.dropWhile pyWs with
      | b :: tail =>
        if b = ']' ∨ b = '}' then rest.takeWhile pyWs ++ b :: cleanScan fuel tail
        else c :: cleanScan fuel rest
      | [] => c :: cleanScan fuel rest
    else c :: cleanScan fuel rest

/-- `MCQGenerator._clean_json` (src/mcq_generator.py lines 204-220):
`re.sub` of `,(\s*[\]}])` with the captured group, i.e. every comma directly
preceding optional whitespace and a closing bracket or brace is dropped. -/
def _clean_json (cs : List Char) : List Char := cleanScan (cs.length + 1) cs

/-- Step 5 of the parse: a decoded dict is wrapped into a one-element list, a
decoded list is returned as is, anything else is a parse error. -/
def finishParse : JValue → Except String (List JValue)
  | .obj ps => .ok [.obj ps]
  | .arr l => .ok l
  | _ => .error "Expected JSON array or object"

/-- `MCQGenerator._parse_llm_response` (src/mcq_generator.py lines 159-202):
search for a greedy bracketed array anywhere in the text, else a greedy
braced object (wrapped in brackets), else fail; strict decode, then one
repaired decode on failure; wrap a lone object; fail on any other shape.
The Python decode-error text interpolated into the second failure message is
modelled by the fixed prefix of that message. -/
def _parse_llm_response (response_text : String) : Except String (List JValue) :=
  let candidate : Option (List Char) :=
    match findGreedy '[' ']' response_text.data with
    | some js => some js
    | none =>
      match findGreedy '{' '}' response_text.data with
      | some ob => some ('[' :: ob ++ [']'])
      | none => none
  match candidate with
  | none => .error "No JSON found in LLM response"
  | some json_str =>
    match json_loads json_str with
    | some data => finishParse data
    | none =>
      match json_loads (_clean_json json_str) with
      | some data => finishParse data
      | none => .error "Invalid JSON in LLM response"

/-! ## Canonical JSON serialization

Modelled from the spec: §8 "given a well-formed JSON array embedded in
arbitrary surrounding prose, `parse` extracts exactly the array's records".
The serialization itself is produced by the model (the LLM), not by
repository code, so a canonical writer is defined here: no inter-token
whitespace, strings escape the two JSON-mandated characters and control
characters, everything else verbatim. -/
/-- Lower-case hex digit. -/
def hexDigitChar (n : Nat) : Char :=
  if n < 10 then Char.ofNat (48 + n) else Char.ofNat (87 + n)

/-- Escape one character for a JSON string literal. -/
def escapeChar (c : Char) : List Char :=
  if c = '"' then ['\\', '"']
  else if c = '\\' then ['\\', '\\']
  else if c.toNat < 32 then
    ['\\', 'u', '0', '0', hexDigitChar (c.toNat / 16), hexDigitChar (c.toNat % 16)]
  else [c]

def serStrChars (cs : List Char) : List Char := (cs.map escapeChar).flatten

mutual

/-- Canonical writer for one JSON value. -/
def jsonSer : JValue → List Char
  | .null => (['n', 'u', 'l', 'l'])
  | .bool true => (['t', 'r', 'u', 'e'])
  | .bool false => (['f', 'a', 'l', 's', 'e'])
  | .num lx => lx.data
  | .str s => '"' :: serStrChars s.data ++ ['"']
  | .arr l => '[' :: serItems l ++ [']']
  | .obj ps => '{' :: serPairs ps ++ ['}']

/-- Comma-separated array items. -/
def serItems : List JValue → List Char
  | [] => []
  | [v] => jsonSer v
  | v :: y :: t => jsonSer v ++ ',' :: serItems (y :: t)

/-- Comma-separated object members. -/
def serPairs : List (String × JValue) → List Char
  | [] => []
  | [(k, v)] => '"' :: serStrChars k.data ++ '"' :: ':' :: jsonSer v
  | (k, v) :: p2 :: t =>
    ('"' :: serStrChars k.data ++ '"' :: ':' :: jsonSer v) ++ ',' :: serPairs (p2 :: t)

end

/-- Characters that would extend a number token to its right. -/
def numContinues (c : Char) : Bool :=
  c.isDigit || c = '.' || c = 'e' || c = 'E' || c = '+' || c = '-'

/-- The text after a value must not extend a preceding number token. -/
def numFollowOkB (rest : List Char) : Bool :=
  match rest.head? with
  | none => true
  | some c => !numContinues c

/-- A stored number lexeme is a well-formed JSON number token: the number
scanner consumes exactly it whenever what follows cannot extend it. -/
def NumTokenOk (lx : String) : Prop :=
  ∀ rest : List Char, numFollowOkB rest = true → pNumber (lx.data ++ rest) = some (lx.data, rest)

mutual

/-- Well-formed serializable value: number lexemes are genuine number tokens
and object keys are distinct (a mapping's keys are distinct by nature). -/
def JWF : JValue → Prop
  | .null => True
  | .bool _ => True
  | .str _ => True
  | .num lx => NumTokenOk lx
  | .arr l => JWFItems l
  | .obj ps => (ps.map Prod.fst).Nodup ∧ JWFPairs ps

def JWFItems : List JValue → Prop
  | [] => True
  | v :: t => JWF v ∧ JWFItems t

def JWFPairs : List (String × JValue) → Prop
  | [] => True
  | (_, v) :: t => JWF v ∧ JWFPairs t

end

/-! ## The repair pass on the trailing-comma variant -/
/-- No comma in this text is followed by optional whitespace and a closing
bracket or brace: on such a text the repair pass of `_clean_json` finds
nothing to strip. -/
def noCommaBracket : List Char → Bool
  | [] => true
  | c :: rest =>
    if c = ',' then
      match rest.dropWhile pyWs with
      | b :: _ => if b = ']' ∨ b = '}' then false else noCommaBracket rest
      | [] => noCommaBracket rest
    else noCommaBracket rest

/-! ## Claim C1: the Response Parser is all-or-nothing -/
/-- Step 1 and 2 of `_parse_llm_response`: the candidate JSON text, when one
is found (a greedy bracketed array, else a greedy braced object wrapped in
brackets). -/
def extractCandidate (response_text : String) : Option (List Char) :=
  match findGreedy '[' ']' response_text.data with
  | some js => some js
  | none =>
    match findGreedy '{' '}' response_text.data with
    | some ob => some ('[' :: ob ++ [']'])
    | none => none

/-- Step 4 of `_parse_llm_response`: strict decode, then one repaired decode
on failure. -/
def decodeLenient (cs : List Char) : Option JValue :=
  match json_loads cs with
  | some v => some v
  | none => json_loads (_clean_json cs)

/-! ## The Generation Loop (src/mcq_generator.py, `MCQGenerator.generate_mcqs`)

The LLM collaborator is injected as `respond : Nat → Except String String`,
giving the response text of each (1-based) attempt; `.error` models an
exception raised while building the prompt or calling the model (caught by
the per-attempt `try`).  Prompt construction, and with it the `subject` and
few-shot settings that only feed the prompt, are folded into `respond`.
Fresh `uuid4` identifiers are injected as `uuid : Nat → String`, indexed by
the number of `Question` objects constructed so far. -/
/-- `GenerationConfig` from src/config.py (defaults as in the source). -/
structure GenerationConfig where
  min_explanation_length : Nat := 20
  require_references : Bool := true
  min_references : Nat := 1
  max_validation_retries : Nat := 2
  include_metadata : Bool := true
  use_few_shot : Bool := true
  num_few_shot_examples : Nat := 2

/-- Python `str()` applied to a decoded JSON value, as used on field values
in `_dict_to_question`.  String values render as themselves, which is the
only case the theorems below depend on; literals render as Python prints
them, and numbers and compound values are modelled by their JSON lexeme
resp. serialization (Python would print floats and nested containers
slightly differently, e.g. `1e2` as `100.0`). -/
def pyStr : JValue → String
  | .str s => s
  | .bool true => "True"
  | .bool false => "False"
  | .null => "None"
  | .num lx => lx
  | v => String.mk (jsonSer v)

/-- Python `repr` of a list of strings, as interpolated into the
missing-fields error message. -/
def pyListRepr (l : List String) : String :=
  "[" ++ String.intercalate (", ") (l.map (fun s => "\x27" ++ s ++ "\x27")) ++ "]"

/-- Dict lookup on a decoded JSON object.  The decoder's `dedupPairs` keeps
the first position with the last value of each key, so the first match is
the dict's value. -/
def lookupKey (ps : List (String × JValue)) (k : String) : Option JValue :=
  (ps.find? (fun p => p.1 = k)).map (fun p => p.2)

/-- The `required_fields` list of `_dict_to_question`. -/
def required_fields : List String :=
  ["question_text_en", "option_a_en", "option_b_en", "option_c_en",
   "option_d_en", "correct_answer", "explanation"]

/-- The `references` coercion of `_dict_to_question`: absent or non-list,
non-string values become `[]`, a string becomes a singleton, a list is kept;
each element then passes through `str(...).strip()`. -/
def coerceReferences (refs : Option JValue) : List String :=
  match refs with
  | some (.str s) => [s.trim]
  | some (.arr l) => l.map (fun r => (pyStr r).trim)
  | _ => []

/-- `MCQGenerator._dict_to_question` (src/mcq_generator.py lines 222-284):
check the seven required fields, coerce `references`, string fields pass
through `str(...).strip()` (and `.upper()` for the answer key).  A non-dict
record always raises in Python (`TypeError` on the membership test or
`AttributeError` at `.get`), modelled as `.error`.  `new_id` is the injected
`uuid4` consumed by the `Question` constructor's default factory. -/
def _dict_to_question (new_id : String) (q_dict : JValue)
    (test_section main_topic subtopic : String) (difficulty : DifficultyLevel) :
    Except String Question :=
  match q_dict with
  | .obj ps =>
    let missing := required_fields.filter (fun f => (lookupKey ps f).isNone)
    if missing ≠ [] then
      .error ("Missing required fields: " ++ pyListRepr missing)
    else
      let fieldStr := fun (f : String) =>
        (pyStr ((lookupKey ps f).getD .null)).trim
      .ok
        { question_id := new_id
          test_section := test_section
          main_topic := main_topic
          subtopic := subtopic
          difficulty := difficulty
          question_text_en := fieldStr ("question_text_en")
          option_a_en := fieldStr ("option_a_en")
          option_b_en := fieldStr ("option_b_en")
          option_c_en := fieldStr ("option_c_en")
          option_d_en := fieldStr ("option_d_en")
          correct_answer := (fieldStr ("correct_answer")).toUpper
          explanation := fieldStr ("explanation")
          references := coerceReferences (lookupKey ps "references") }
  | _ => .error "question record is not a mapping"

/-- `MCQGenerator._passes_additional_validation` (src/mcq_generator.py lines
286-320). -/
def _passes_additional_validation (cfg : GenerationConfig) (question : Question) :
    Bool :=
  if question.explanation.length < cfg.min_explanation_length then false
  else if cfg.require_references &&
      question.references.length < cfg.min_references then false
  else if [question.option_a_en.toLower, question.option_b_en.toLower,
           question.option_c_en.toLower, question.option_d_en.toLower].any
      (fun opt => opt.length < 2) then false
  else true

/-- The inner `for q_dict in question_dicts` loop of `generate_mcqs`
(src/mcq_generator.py lines 111-141): break once `n` questions are held,
construct (consuming one uuid on success), validate, additionally validate,
append.  A construction failure is caught and skips the record.  State is
`(questions, uuid counter)`. -/
def acceptLoop (cfg : GenerationConfig) (uuid : Nat → String)
    (test_section main_topic subtopic : String) (difficulty : DifficultyLevel)
    (n : Nat) :
    List JValue → List Question × Nat → List Question × Nat
  | [], s => s
  | q_dict :: rest, (questions, ctr) =>
    if n ≤ questions.length then (questions, ctr)
    else
      match _dict_to_question (uuid ctr) q_dict test_section main_topic
          subtopic difficulty with
      | .error _ =>
        acceptLoop cfg uuid test_section main_topic subtopic difficulty n
          rest (questions, ctr)
      | .ok question =>
        if question.validate ≠ [] then
          acceptLoop cfg uuid test_section main_topic subtopic difficulty n
            rest (questions, ctr + 1)
        else if ¬ _passes_additional_validation cfg question then
          acceptLoop cfg uuid test_section main_topic subtopic difficulty n
            rest (questions, ctr + 1)
        else
          acceptLoop cfg uuid test_section main_topic subtopic difficulty n
            rest (questions ++ [question], ctr + 1)

/-- The `while len(questions) < n and attempts < max_attempts` loop of
`generate_mcqs` (src/mcq_generator.py lines 84-145).  `fuel` is the
remaining attempt budget `max_attempts - attempts`, so the second loop guard
is `0 < fuel`; a failed model call or parse (the two `except ... continue`
paths) consumes the attempt and changes no other state. -/
def genLoopAux (cfg : GenerationConfig) (respond : Nat → Except String String)
    (uuid : Nat → String) (test_section main_topic subtopic : String)
    (difficulty : DifficultyLevel) (n : Nat) :
    Nat → List Question × Nat × Nat → List Question × Nat × Nat
  | 0, s => s
  | fuel + 1, (questions, attempts, ctr) =>
    if questions.length < n then
      match respond (attempts + 1) with
      | .error _ =>
        genLoopAux cfg respond uuid test_section main_topic subtopic difficulty
          n fuel (questions, attempts + 1, ctr)
      | .ok response_text =>
        match _parse_llm_response response_text with
        | .error _ =>
          genLoopAux cfg respond uuid test_section main_topic subtopic
            difficulty n fuel (questions, attempts + 1, ctr)
        | .ok question_dicts =>
          match acceptLoop cfg uuid test_section main_topic subtopic
              difficulty n question_dicts (questions, ctr) with
          | (questions2, ctr2) =>
            genLoopAux cfg respond uuid test_section main_topic subtopic
              difficulty n fuel (questions2, attempts + 1, ctr2)
    else (questions, attempts, ctr)

/-- Python `test_section = test_section or main_topic`: `None` and the empty
string both fall back to `main_topic`. -/
def resolve_test_section (test_section : Option String) (main_topic : String) :
    String :=
  match test_section with
  | some s => if s = "" then main_topic else s
  | none => main_topic

/-- The loop phase of `generate_mcqs`: run `genLoopAux` from the empty state
with the full budget `max_attempts = n * (1 + max_validation_retries)`;
yields `(questions, attempts, uuid counter)` at loop exit. -/
def generation_run (cfg : GenerationConfig)
    (respond : Nat → Except String String) (uuid : Nat → String)
    (main_topic subtopic : String) (difficulty : DifficultyLevel) (n : Nat)
    (test_section : Option String) : List Question × Nat × Nat :=
  genLoopAux cfg respond uuid (resolve_test_section test_section main_topic)
    main_topic subtopic difficulty n
    (n * (1 + cfg.max_validation_retries)) ([], 0, 0)

/-- `MCQGenerator.generate_mcqs` (src/mcq_generator.py lines 47-157): run
the attempt loop, then raise `MCQGenerationError` (modelled as `.error` with
the exception's message) exactly when no question was accepted, else return
the accepted list. -/
def generate_mcqs (cfg : GenerationConfig)
    (respond : Nat → Except String String) (uuid : Nat → String)
    (main_topic subtopic : String) (difficulty : DifficultyLevel) (n : Nat)
    (test_section : Option String) : Except String (List Question) :=
  let r := generation_run cfg respond uuid main_topic subtopic difficulty n
    test_section
  if r.1.length = 0 then
    .error ("Failed to generate any valid questions after " ++
      toString r.2.1 ++ " attempts")
  else .ok r.1

/-! ## The Question Bank (src/paper_builder.py, `QuestionBank`)

The bank's durable state file holds the used-identifier set written by the
last `_save_state`; it is modelled by the `persisted_ids` field, which
`add_questions` overwrites with the in-memory set after its loop. -/
/-- `QuestionBank` state: in-memory used-identifier set and question list,
plus the identifier set most recently written to the state file. -/
structure QuestionBank where
  used_question_ids : Finset String
  all_questions : List Question
  persisted_ids : Finset String

/-- One iteration of the `for q in questions` loop of
`QuestionBank.add_questions` (src/paper_builder.py lines 101-104): a
question whose identifier is already used is skipped entirely. -/
def QuestionBank.add_one (bank : QuestionBank) (q : Question) : QuestionBank :=
  if q.question_id ∈ bank.used_question_ids then bank
  else
    { bank with
      used_question_ids := insert q.question_id bank.used_question_ids
      all_questions := bank.all_questions ++ [q] }

/-- `QuestionBank.add_questions` (src/paper_builder.py lines 99-106): run
the loop, then `_save_state` persists the used-identifier set. -/
def QuestionBank.add_questions (bank : QuestionBank) (questions : List Question) :
    QuestionBank :=
  { questions.foldl QuestionBank.add_one bank with
    persisted_ids :=
      (questions.foldl QuestionBank.add_one bank).used_question_ids }

/-! ## The Paper Assembler (src/paper_builder.py, `PaperBuilder`)

Section building calls two generator collaborators: the multimodal generator
(`mmGen`, whose exceptions are caught and trigger the text-only fallback)
and the text-only `generate_mcqs` convenience function (`txtGen`, whose
exceptions propagate).  Both are injected; the paper's `uuid4` identifier
and `datetime.now().isoformat()` timestamp are injected as strings. -/
/-- A text-image pair (src/src/models/multimodal_models.py `TextImagePair`),
restricted to the fields that identify it to the injected multimodal
generator; the pair is only passed through, never inspected. -/
structure TextImagePair where
  text : String
  page_number : Int
  topic_hint : Option String
  source_pdf : Option String

/-- One topic entry of a section's `topics` list: a Python dict read with
`.get("main_topic", "General")` / `.get("subtopic", "General")`, so each key
may be absent. -/
structure TopicSpec where
  main_topic : Option String
  subtopic : Option String

/-- `PaperSection` from src/paper_builder.py; the
`difficulty_distribution` dict is an insertion-ordered association list. -/
structure PaperSection where
  name : String
  question_count : Int
  difficulty_distribution : List (String × Nat)
  topics : List TopicSpec

/-- `Paper` from src/paper_builder.py. -/
structure Paper where
  paper_id : String
  paper_name : String
  subject : String
  questions : List Question
  created_at : String

/-- `Paper.validate` (src/paper_builder.py lines 39-58): empty-paper check,
duplicate-identifier check, then each question's own violations prefixed
with its 1-based position. -/
def Paper.validate (p : Paper) : List String :=
  (if p.questions.length = 0 then ["Paper has no questions"] else [])
  ++ (if (p.questions.map Question.question_id).Nodup then []
      else ["Paper contains duplicate question IDs"])
  ++ ((List.enumFrom 1 p.questions).filterMap (fun iq =>
      if iq.2.validate = [] then none
      else some ("Question " ++ toString iq.1 ++ " invalid: " ++
        String.intercalate (", ") iq.2.validate)))

/-- The generation step for one topic of `_build_section`
(src/paper_builder.py lines 291-341): with diagram pairs available, try the
multimodal generator on the first pair and fall back to text-only generation
when it raises; otherwise go straight to text-only generation.  Stamping is
applied to the result by the caller. -/
def topicGenerate
    (txtGen : String → String → String → DifficultyLevel → Nat →
      Except String (List Question))
    (mmGen : TextImagePair → String → String → String → DifficultyLevel →
      Nat → Except String (List Question))
    (diagram_pairs : List TextImagePair) (subject main_topic subtopic : String)
    (difficulty : DifficultyLevel) (topic_count : Nat) :
    Except String (List Question) :=
  match diagram_pairs with
  | [] => txtGen subject main_topic subtopic difficulty topic_count
  | pair :: _ =>
    match mmGen pair subject main_topic subtopic difficulty topic_count with
    | .ok qs => .ok qs
    | .error _ => txtGen subject main_topic subtopic difficulty topic_count
  -- the fallback path re-stamps and extends exactly like the direct path

/-- The `for i, topic_spec in enumerate(section.topics)` loop of
`_build_section` (src/paper_builder.py lines 280-341), for one difficulty
band: allocate `qpt + 1` to indices below `remainder` and `qpt` above, skip
zero allocations, generate, stamp every generated question's `test_section`
with the section name, and concatenate in order. -/
def buildTopics
    (txtGen : String → String → String → DifficultyLevel → Nat →
      Except String (List Question))
    (mmGen : TextImagePair → String → String → String → DifficultyLevel →
      Nat → Except String (List Question))
    (diagram_pairs : List TextImagePair) (sectionName subject : String)
    (qpt remainder : Nat) (difficulty : DifficultyLevel) :
    Nat → List TopicSpec → Except String (List Question)
  | _, [] => .ok []
  | i, spec :: rest =>
    if qpt + (if i < remainder then 1 else 0) = 0 then
      buildTopics txtGen mmGen diagram_pairs sectionName subject qpt remainder
        difficulty (i + 1) rest
    else
      match topicGenerate txtGen mmGen diagram_pairs subject
          (spec.main_topic.getD ("General")) (spec.subtopic.getD ("General"))
          difficulty (qpt + (if i < remainder then 1 else 0)) with
      | .error e => .error e
      | .ok topic_questions =>
        match buildTopics txtGen mmGen diagram_pairs sectionName subject qpt
            remainder difficulty (i + 1) rest with
        | .error e => .error e
        | .ok later =>
          .ok ((topic_questions.map
            (fun q => { q with test_section := sectionName })) ++ later)

/-- The outer `for difficulty_str, count in ...items()` loop of
`_build_section` (src/paper_builder.py lines 263-341): skip zero counts,
look the difficulty up by upper-cased name (a failed lookup is Python's
uncaught `KeyError`), skip sections without topics, split the band across
the topics and concatenate the bands in order. -/
def buildBands
    (txtGen : String → String → String → DifficultyLevel → Nat →
      Except String (List Question))
    (mmGen : TextImagePair → String → String → String → DifficultyLevel →
      Nat → Except String (List Question))
    (diagram_pairs : List TextImagePair) (sectionName subject : String)
    (topics : List TopicSpec) :
    List (String × Nat) → Except String (List Question)
  | [] => .ok []
  | (difficulty_str, count) :: rest =>
    if count = 0 then
      buildBands txtGen mmGen diagram_pairs sectionName subject topics rest
    else
      match DifficultyLevel.fromName difficulty_str.toUpper with
      | none => .error ("KeyError: " ++ difficulty_str.toUpper)
      | some difficulty =>
        if topics.length = 0 then
          buildBands txtGen mmGen diagram_pairs sectionName subject topics rest
        else
          match buildTopics txtGen mmGen diagram_pairs sectionName subject
              (count / topics.length) (count % topics.length) difficulty
              0 topics with
          | .error e => .error e
          | .ok band =>
            match buildBands txtGen mmGen diagram_pairs sectionName subject
                topics rest with
            | .error e => .error e
            | .ok later => .ok (band ++ later)

/-- `PaperBuilder._build_section` (src/paper_builder.py lines 253-343). -/
def _build_section
    (txtGen : String → String → String → DifficultyLevel → Nat →
      Except String (List Question))
    (mmGen : TextImagePair → String → String → String → DifficultyLevel →
      Nat → Except String (List Question))
    (sec : PaperSection) (subject : String)
    (diagram_pairs : List TextImagePair) : Except String (List Question) :=
  buildBands txtGen mmGen diagram_pairs sec.name subject sec.topics
    sec.difficulty_distribution

/-- `PaperBuilder.build_paper` (src/paper_builder.py lines 149-251), with
the per-section generation outcome abstracted as `gen` (claim C8 ranges
over every outcome of section building): concatenate the section results in
order, assemble the paper, run the advisory validation, register everything
with the bank, and return the paper.  The triple also exposes the updated
bank and the validation report, which the source only logs. -/
def build_paper (bank : QuestionBank) (paper_id created_at : String)
    (config : PaperConfig) (sections : List PaperSection)
    (gen : PaperSection → List Question) :
    Paper × QuestionBank × List String :=
  ({ paper_id := paper_id
     paper_name := config.paper_name
     subject := config.subject
     questions := (sections.map gen).flatten
     created_at := created_at },
   bank.add_questions ((sections.map gen).flatten),
   Paper.validate
     { paper_id := paper_id
       paper_name := config.paper_name
       subject := config.subject
       questions := (sections.map gen).flatten
       created_at := created_at })

/-- Spec-side ghost variant of `buildTopics` for claim C9: identical control
flow, but the generated questions are collected exactly as the generators
returned them, without the section-name stamp.  Comparing `buildTopics`
against `map`-stamping this variant shows the stamp is the only modification
the Section Builder applies after generation. -/
def buildTopicsRaw
    (txtGen : String → String → String → DifficultyLevel → Nat →
      Except String (List Question))
    (mmGen : TextImagePair → String → String → String → DifficultyLevel →
      Nat → Except String (List Question))
    (diagram_pairs : List TextImagePair) (subject : String)
    (qpt remainder : Nat) (difficulty : DifficultyLevel) :
    Nat → List TopicSpec → Except String (List Question)
  | _, [] => .ok []
  | i, spec :: rest =>
    if qpt + (if i < remainder then 1 else 0) = 0 then
      buildTopicsRaw txtGen mmGen diagram_pairs subject qpt remainder
        difficulty (i + 1) rest
    else
      match topicGenerate txtGen mmGen diagram_pairs subject
          (spec.main_topic.getD ("General")) (spec.subtopic.getD ("General"))
          difficulty (qpt + (if i < remainder then 1 else 0)) with
      | .error e => .error e
      | .ok topic_questions =>
        match buildTopicsRaw txtGen mmGen diagram_pairs subject qpt
            remainder difficulty (i + 1) rest with
        | .error e => .error e
        | .ok later => .ok (topic_questions ++ later)

/-- Spec-side ghost variant of `buildBands` without the stamp; see
`buildTopicsRaw`. -/
def buildBandsRaw
    (txtGen : String → String → String → DifficultyLevel → Nat →
      Except String (List Question))
    (mmGen : TextImagePair → String → String → String → DifficultyLevel →
      Nat → Except String (List Question))
    (diagram_pairs : List TextImagePair) (subject : String)
    (topics : List TopicSpec) :
    List (String × Nat) → Except String (List Question)
  | [] => .ok []
  | (difficulty_str, count) :: rest =>
    if count = 0 then
      buildBandsRaw txtGen mmGen diagram_pairs subject topics rest
    else
      match DifficultyLevel.fromName difficulty_str.toUpper with
      | none => .error ("KeyError: " ++ difficulty_str.toUpper)
      | some difficulty =>
        if topics.length = 0 then
          buildBandsRaw txtGen mmGen diagram_pairs subject topics rest
        else
          match buildTopicsRaw txtGen mmGen diagram_pairs subject
              (count / topics.length) (count % topics.length) difficulty
              0 topics with
          | .error e => .error e
          | .ok band =>
            match buildBandsRaw txtGen mmGen diagram_pairs subject
                topics rest with
            | .error e => .error e
            | .ok later => .ok (band ++ later)

/-- The stamp `_build_section` applies to every generated question: only the
`test_section` field changes. -/
def stampSection (sectionName : String) (q : Question) : Question :=
  { q with test_section := sectionName }

/-! ## Theorems -/

/-- Claim C2: a Question satisfying all stated invariants gets an empty
violation list from `validate`, and a Question violating exactly one
invariant in isolation gets exactly the one violation naming it. -/
theorem validate_empty_iff_invariants (q : Question) :
    ((∀ i, questionInvariant i q) → q.validate = []) ∧
    (∀ i, i < 10 → ¬ questionInvariant i q →
      (∀ j, j ≠ i → questionInvariant j q) → q.validate = [violationMessage i q]) := by
  constructor
  · intro h
    have h0 : q.question_text_en.trim ≠ "" := h 0
    have h1 : q.option_a_en.trim ≠ "" := h 1
    have h2 : q.option_b_en.trim ≠ "" := h 2
    have h3 : q.option_c_en.trim ≠ "" := h 3
    have h4 : q.option_d_en.trim ≠ "" := h 4
    have h5 : q.correct_answer ∈ (["A", "B", "C", "D"] : List String) := h 5
    have h6 : q.explanation.trim ≠ "" ∧ 20 ≤ (q.explanation.trim).length := h 6
    have h7 : q.optionsNormalized.Nodup := h 7
    have h8 : q.test_section.trim ≠ "" := h 8
    have h9 : q.main_topic.trim ≠ "" := h 9
    simp only [Question.validate, if_neg h0, if_neg h1, if_neg h2, if_neg h3, if_neg h4,
      if_pos h5, if_neg h6.1, if_neg (Nat.not_lt.mpr h6.2), if_pos h7, if_neg h8, if_neg h9,
      List.append_nil, List.nil_append]
  · intro i hi hv ho
    interval_cases i
    · have h1 : q.option_a_en.trim ≠ "" := ho 1 (by omega)
      have h2 : q.option_b_en.trim ≠ "" := ho 2 (by omega)
      have h3 : q.option_c_en.trim ≠ "" := ho 3 (by omega)
      have h4 : q.option_d_en.trim ≠ "" := ho 4 (by omega)
      have h5 : q.correct_answer ∈ (["A", "B", "C", "D"] : List String) := ho 5 (by omega)
      have h6 : q.explanation.trim ≠ "" ∧ 20 ≤ (q.explanation.trim).length := ho 6 (by omega)
      have h7 : q.optionsNormalized.Nodup := ho 7 (by omega)
      have h8 : q.test_section.trim ≠ "" := ho 8 (by omega)
      have h9 : q.main_topic.trim ≠ "" := ho 9 (by omega)
      have h0 : q.question_text_en.trim = "" := by
        by_contra hc
        exact hv hc
      simp only [Question.validate, violationMessage, if_pos h0, if_neg h1, if_neg h2,
        if_neg h3, if_neg h4, if_pos h5, if_neg h6.1, if_neg (Nat.not_lt.mpr h6.2),
        if_pos h7, if_neg h8, if_neg h9, List.append_nil, List.nil_append]
    · have h0 : q.question_text_en.trim ≠ "" := ho 0 (by omega)
      have h2 : q.option_b_en.trim ≠ "" := ho 2 (by omega)
      have h3 : q.option_c_en.trim ≠ "" := ho 3 (by omega)
      have h4 : q.option_d_en.trim ≠ "" := ho 4 (by omega)
      have h5 : q.correct_answer ∈ (["A", "B", "C", "D"] : List String) := ho 5 (by omega)
      have h6 : q.explanation.trim ≠ "" ∧ 20 ≤ (q.explanation.trim).length := ho 6 (by omega)
      have h7 : q.optionsNormalized.Nodup := ho 7 (by omega)
      have h8 : q.test_section.trim ≠ "" := ho 8 (by omega)
      have h9 : q.main_topic.trim ≠ "" := ho 9 (by omega)
      have h1 : q.option_a_en.trim = "" := by
        by_contra hc
        exact hv hc
      simp only [Question.validate, violationMessage, if_neg h0, if_pos h1, if_neg h2,
        if_neg h3, if_neg h4, if_pos h5, if_neg h6.1, if_neg (Nat.not_lt.mpr h6.2),
        if_pos h7, if_neg h8, if_neg h9, List.append_nil, List.nil_append]
    · have h0 : q.question_text_en.trim ≠ "" := ho 0 (by omega)
      have h1 : q.option_a_en.trim ≠ "" := ho 1 (by omega)
      have h3 : q.option_c_en.trim ≠ "" := ho 3 (by omega)
      have h4 : q.option_d_en.trim ≠ "" := ho 4 (by omega)
      have h5 : q.correct_answer ∈ (["A", "B", "C", "D"] : List String) := ho 5 (by omega)
      have h6 : q.explanation.trim ≠ "" ∧ 20 ≤ (q.explanation.trim).length := ho 6 (by omega)
      have h7 : q.optionsNormalized.Nodup := ho 7 (by omega)
      have h8 : q.test_section.trim ≠ "" := ho 8 (by omega)
      have h9 : q.main_topic.trim ≠ "" := ho 9 (by omega)
      have h2 : q.option_b_en.trim = "" := by
        by_contra hc
        exact hv hc
      simp only [Question.validate, violationMessage, if_neg h0, if_neg h1, if_pos h2,
        if_neg h3, if_neg h4, if_pos h5, if_neg h6.1, if_neg (Nat.not_lt.mpr h6.2),
        if_pos h7, if_neg h8, if_neg h9, List.append_nil, List.nil_append]
    · have h0 : q.question_text_en.trim ≠ "" := ho 0 (by omega)
      have h1 : q.option_a_en.trim ≠ "" := ho 1 (by omega)
      have h2 : q.option_b_en.trim ≠ "" := ho 2 (by omega)
      have h4 : q.option_d_en.trim ≠ "" := ho 4 (by omega)
      have h5 : q.correct_answer ∈ (["A", "B", "C", "D"] : List String) := ho 5 (by omega)
      have h6 : q.explanation.trim ≠ "" ∧ 20 ≤ (q.explanation.trim).length := ho 6 (by omega)
      have h7 : q.optionsNormalized.Nodup := ho 7 (by omega)
      have h8 : q.test_section.trim ≠ "" := ho 8 (by omega)
      have h9 : q.main_topic.trim ≠ "" := ho 9 (by omega)
      have h3 : q.option_c_en.trim = "" := by
        by_contra hc
        exact hv hc
      simp only [Question.validate, violationMessage, if_neg h0, if_neg h1, if_neg h2,
        if_pos h3, if_neg h4, if_pos h5, if_neg h6.1, if_neg (Nat.not_lt.mpr h6.2),
        if_pos h7, if_neg h8, if_neg h9, List.append_nil, List.nil_append]
    · have h0 : q.question_text_en.trim ≠ "" := ho 0 (by omega)
      have h1 : q.option_a_en.trim ≠ "" := ho 1 (by omega)
      have h2 : q.option_b_en.trim ≠ "" := ho 2 (by omega)
      have h3 : q.option_c_en.trim ≠ "" := ho 3 (by omega)
      have h5 : q.correct_answer ∈ (["A", "B", "C", "D"] : List String) := ho 5 (by omega)
      have h6 : q.explanation.trim ≠ "" ∧ 20 ≤ (q.explanation.trim).length := ho 6 (by omega)
      have h7 : q.optionsNormalized.Nodup := ho 7 (by omega)
      have h8 : q.test_section.trim ≠ "" := ho 8 (by omega)
      have h9 : q.main_topic.trim ≠ "" := ho 9 (by omega)
      have h4 : q.option_d_en.trim = "" := by
        by_contra hc
        exact hv hc
      simp only [Question.validate, violationMessage, if_neg h0, if_neg h1, if_neg h2,
        if_neg h3, if_pos h4, if_pos h5, if_neg h6.1, if_neg (Nat.not_lt.mpr h6.2),
        if_pos h7, if_neg h8, if_neg h9, List.append_nil, List.nil_append]
    · have h0 : q.question_text_en.trim ≠ "" := ho 0 (by omega)
      have h1 : q.option_a_en.trim ≠ "" := ho 1 (by omega)
      have h2 : q.option_b_en.trim ≠ "" := ho 2 (by omega)
      have h3 : q.option_c_en.trim ≠ "" := ho 3 (by omega)
      have h4 : q.option_d_en.trim ≠ "" := ho 4 (by omega)
      have h6 : q.explanation.trim ≠ "" ∧ 20 ≤ (q.explanation.trim).length := ho 6 (by omega)
      have h7 : q.optionsNormalized.Nodup := ho 7 (by omega)
      have h8 : q.test_section.trim ≠ "" := ho 8 (by omega)
      have h9 : q.main_topic.trim ≠ "" := ho 9 (by omega)
      have h5 : q.correct_answer ∉ (["A", "B", "C", "D"] : List String) := hv
      simp only [Question.validate, violationMessage, if_neg h0, if_neg h1, if_neg h2,
        if_neg h3, if_neg h4, if_neg h5, if_neg h6.1, if_neg (Nat.not_lt.mpr h6.2),
        if_pos h7, if_neg h8, if_neg h9, List.append_nil, List.nil_append]
    · have h0 : q.question_text_en.trim ≠ "" := ho 0 (by omega)
      have h1 : q.option_a_en.trim ≠ "" := ho 1 (by omega)
      have h2 : q.option_b_en.trim ≠ "" := ho 2 (by omega)
      have h3 : q.option_c_en.trim ≠ "" := ho 3 (by omega)
      have h4 : q.option_d_en.trim ≠ "" := ho 4 (by omega)
      have h5 : q.correct_answer ∈ (["A", "B", "C", "D"] : List String) := ho 5 (by omega)
      have h7 : q.optionsNormalized.Nodup := ho 7 (by omega)
      have h8 : q.test_section.trim ≠ "" := ho 8 (by omega)
      have h9 : q.main_topic.trim ≠ "" := ho 9 (by omega)
      by_cases hemp : q.explanation.trim = ""
      · simp only [Question.validate, violationMessage, if_neg h0, if_neg h1, if_neg h2,
          if_neg h3, if_neg h4, if_pos h5, if_pos hemp, if_pos h7, if_neg h8, if_neg h9,
          List.append_nil, List.nil_append]
      · have hshort : (q.explanation.trim).length < 20 := by
          by_contra hc
          exact hv ⟨hemp, Nat.le_of_not_lt hc⟩
        simp only [Question.validate, violationMessage, if_neg h0, if_neg h1, if_neg h2,
          if_neg h3, if_neg h4, if_pos h5, if_neg hemp, if_pos hshort, if_pos h7,
          if_neg h8, if_neg h9, List.append_nil, List.nil_append]
    · have h0 : q.question_text_en.trim ≠ "" := ho 0 (by omega)
      have h1 : q.option_a_en.trim ≠ "" := ho 1 (by omega)
      have h2 : q.option_b_en.trim ≠ "" := ho 2 (by omega)
      have h3 : q.option_c_en.trim ≠ "" := ho 3 (by omega)
      have h4 : q.option_d_en.trim ≠ "" := ho 4 (by omega)
      have h5 : q.correct_answer ∈ (["A", "B", "C", "D"] : List String) := ho 5 (by omega)
      have h6 : q.explanation.trim ≠ "" ∧ 20 ≤ (q.explanation.trim).length := ho 6 (by omega)
      have h8 : q.test_section.trim ≠ "" := ho 8 (by omega)
      have h9 : q.main_topic.trim ≠ "" := ho 9 (by omega)
      have h7 : ¬ q.optionsNormalized.Nodup := hv
      simp only [Question.validate, violationMessage, if_neg h0, if_neg h1, if_neg h2,
        if_neg h3, if_neg h4, if_pos h5, if_neg h6.1, if_neg (Nat.not_lt.mpr h6.2),
        if_neg h7, if_neg h8, if_neg h9, List.append_nil, List.nil_append]
    · have h0 : q.question_text_en.trim ≠ "" := ho 0 (by omega)
      have h1 : q.option_a_en.trim ≠ "" := ho 1 (by omega)
      have h2 : q.option_b_en.trim ≠ "" := ho 2 (by omega)
      have h3 : q.option_c_en.trim ≠ "" := ho 3 (by omega)
      have h4 : q.option_d_en.trim ≠ "" := ho 4 (by omega)
      have h5 : q.correct_answer ∈ (["A", "B", "C", "D"] : List String) := ho 5 (by omega)
      have h6 : q.explanation.trim ≠ "" ∧ 20 ≤ (q.explanation.trim).length := ho 6 (by omega)
      have h7 : q.optionsNormalized.Nodup := ho 7 (by omega)
      have h9 : q.main_topic.trim ≠ "" := ho 9 (by omega)
      have h8 : q.test_section.trim = "" := by
        by_contra hc
        exact hv hc
      simp only [Question.validate, violationMessage, if_neg h0, if_neg h1, if_neg h2,
        if_neg h3, if_neg h4, if_pos h5, if_neg h6.1, if_neg (Nat.not_lt.mpr h6.2),
        if_pos h7, if_pos h8, if_neg h9, List.append_nil, List.nil_append]
    · have h0 : q.question_text_en.trim ≠ "" := ho 0 (by omega)
      have h1 : q.option_a_en.trim ≠ "" := ho 1 (by omega)
      have h2 : q.option_b_en.trim ≠ "" := ho 2 (by omega)
      have h3 : q.option_c_en.trim ≠ "" := ho 3 (by omega)
      have h4 : q.option_d_en.trim ≠ "" := ho 4 (by omega)
      have h5 : q.correct_answer ∈ (["A", "B", "C", "D"] : List String) := ho 5 (by omega)
      have h6 : q.explanation.trim ≠ "" ∧ 20 ≤ (q.explanation.trim).length := ho 6 (by omega)
      have h7 : q.optionsNormalized.Nodup := ho 7 (by omega)
      have h8 : q.test_section.trim ≠ "" := ho 8 (by omega)
      have h9 : q.main_topic.trim = "" := by
        by_contra hc
        exact hv hc
      simp only [Question.validate, violationMessage, if_neg h0, if_neg h1, if_neg h2,
        if_neg h3, if_neg h4, if_pos h5, if_neg h6.1, if_neg (Nat.not_lt.mpr h6.2),
        if_pos h7, if_neg h8, if_pos h9, List.append_nil, List.nil_append]

theorem sum_range_ite_lt (T r : Nat) :
    (∑ i ∈ Finset.range T, if i < r then 1 else 0) = min r T := by
  induction T with
  | zero => simp
  | succ n ih =>
    rw [Finset.sum_range_succ, ih]
    by_cases h : n < r
    · rw [if_pos h]
      omega
    · rw [if_neg h]
      omega

/-- Claim C3: for a difficulty band of `C` questions over `T` topics, the
Section Builder gives `C / T + 1` questions to each of the first `C % T`
topics, `C / T` to the rest, the allocations sum to exactly `C`, and no two
allocations differ by more than one. -/
theorem topic_count_partition (C T : Nat) (hT : 1 ≤ T) :
    (∀ i, i < C % T → topic_count C T i = C / T + 1) ∧
    (∀ i, C % T ≤ i → topic_count C T i = C / T) ∧
    (∑ i ∈ Finset.range T, topic_count C T i) = C ∧
    (∀ i j, topic_count C T i ≤ topic_count C T j + 1) := by
  refine ⟨?_, ?_, ?_, ?_⟩
  · intro i hi
    simp [topic_count, questions_per_topic, hi]
  · intro i hi
    simp [topic_count, questions_per_topic, Nat.not_lt.mpr hi]
  · have hsplit : (∑ i ∈ Finset.range T, topic_count C T i)
        = (∑ _i ∈ Finset.range T, C / T) + ∑ i ∈ Finset.range T, (if i < C % T then 1 else 0) := by
      rw [← Finset.sum_add_distrib]
      rfl
    rw [hsplit, Finset.sum_const, Finset.card_range, smul_eq_mul, sum_range_ite_lt]
    have hmod : C % T < T := Nat.mod_lt _ (by omega)
    have hdm := Nat.div_add_mod C T
    omega
  · intro i j
    unfold topic_count questions_per_topic
    by_cases hi : i < C % T <;> by_cases hj : j < C % T <;> simp [hi, hj] <;> omega

theorem get_difficulty_counts_go_sum (k : String) (C : Int) (p : Rat) :
    ∀ (init : List (String × Rat)) (r : Int), k ∉ init.map Prod.fst →
      ((get_difficulty_counts_go k C (init ++ [(k, p)]) r).map Prod.snd).sum = r := by
  intro init
  induction init with
  | nil =>
    intro r _
    simp [get_difficulty_counts_go]
  | cons hd tl ih =>
    intro r hk
    obtain ⟨d, p0⟩ := hd
    have hd_ne : d ≠ k := by
      intro h
      exact hk (by simp [h])
    have htl : k ∉ tl.map Prod.fst := by
      intro h
      exact hk (by simp [h])
    simp only [List.cons_append, get_difficulty_counts_go, if_neg hd_ne,
      List.map_cons, List.sum_cons, List.append_eq]
    rw [ih _ htl]
    ring

/-- Claim C10: for a non-empty difficulty distribution (a Python dict, so its
keys are distinct) and any integer section count, the per-difficulty counts
sum to exactly the section count: the last difficulty label receives whatever
remains after the earlier labels take their truncated shares. -/
theorem get_difficulty_counts_sum (cfg : PaperConfig) (C : Int)
    (hne : cfg.difficulty_distribution ≠ [])
    (hnd : (cfg.difficulty_distribution.map Prod.fst).Nodup) :
    ((cfg.get_difficulty_counts C).map Prod.snd).sum = C := by
  obtain ⟨init, kp, hdecomp⟩ : ∃ init kp, cfg.difficulty_distribution = init ++ [kp] := by
    refine ⟨cfg.difficulty_distribution.dropLast, cfg.difficulty_distribution.getLast hne, ?_⟩
    exact (List.dropLast_append_getLast hne).symm
  obtain ⟨k, p⟩ := kp
  have hlast : cfg.difficulty_distribution.getLast? = some (k, p) := by
    rw [hdecomp]
    simp [List.getLast?_append]
  have hknotin : k ∉ init.map Prod.fst := by
    have := hnd
    rw [hdecomp] at this
    simp only [List.map_append, List.map_cons, List.map_nil] at this
    have h2 := List.disjoint_of_nodup_append this
    intro hmem
    exact h2 hmem (by simp)
  unfold PaperConfig.get_difficulty_counts
  rw [hlast]
  rw [hdecomp]
  exact get_difficulty_counts_go_sum k C p init C hknotin

theorem dropWhile_length_le {α : Type} (p : α → Bool) (l : List α) :
    (l.dropWhile p).length ≤ l.length := by
  induction l with
  | nil => simp
  | cons a t ih =>
    by_cases h : p a
    · simp only [List.dropWhile, h]
      exact ih.trans (by simp)
    · simp [List.dropWhile, h]

/-! ## Scanner helper lemmas -/
theorem skipWs_cons (c : Char) (t : List Char) (h : jsonWs c = false) :
    skipWs (c :: t) = c :: t := by
  simp [skipWs, List.dropWhile, h]

theorem isPrefixOf_append_self (l r : List Char) : l.isPrefixOf (l ++ r) = true := by
  induction l with
  | nil => simp [List.isPrefixOf]
  | cons a t ih => simp [List.isPrefixOf, ih]

theorem takeWhile_append_stop (p : Char → Bool) (xs : List Char) (y : Char) (ys : List Char)
    (hx : ∀ c ∈ xs, p c = true) (hy : p y = false) :
    (xs ++ y :: ys).takeWhile p = xs := by
  induction xs with
  | nil => simp [List.takeWhile, hy]
  | cons a t ih =>
    have ha : p a = true := hx a (by simp)
    simp only [List.cons_append, List.takeWhile, ha, List.append_eq]
    rw [ih (fun c hc => hx c (by simp [hc]))]

theorem dropWhile_append_stop (p : Char → Bool) (xs : List Char) (y : Char) (ys : List Char)
    (hx : ∀ c ∈ xs, p c = true) (hy : p y = false) :
    (xs ++ y :: ys).dropWhile p = y :: ys := by
  induction xs with
  | nil => simp [List.dropWhile, hy]
  | cons a t ih =>
    have ha : p a = true := hx a (by simp)
    simp only [List.cons_append, List.dropWhile, ha, List.append_eq]
    exact ih (fun c hc => hx c (by simp [hc]))

theorem dropWhile_append_split (p : Char → Bool) (xs ys : List Char) :
    (xs ++ ys).dropWhile p =
      (if xs.dropWhile p = [] then ys.dropWhile p else xs.dropWhile p ++ ys) := by
  induction xs with
  | nil => simp
  | cons a t ih =>
    by_cases ha : p a
    · simp only [List.cons_append, List.dropWhile, ha, List.append_eq, ih]
    · simp [List.dropWhile, ha]

theorem takeWhile_all_append (p : Char → Bool) (xs ys : List Char)
    (hx : ∀ c ∈ xs, p c = true) :
    (xs ++ ys).takeWhile p = xs ++ ys.takeWhile p := by
  induction xs with
  | nil => simp
  | cons a t ih =>
    have ha : p a = true := hx a (by simp)
    simp only [List.cons_append, List.takeWhile, ha, List.append_eq]
    rw [ih (fun c hc => hx c (by simp [hc]))]

theorem dropWhile_all_append (p : Char → Bool) (xs ys : List Char)
    (hx : ∀ c ∈ xs, p c = true) :
    (xs ++ ys).dropWhile p = ys.dropWhile p := by
  induction xs with
  | nil => simp
  | cons a t ih =>
    have ha : p a = true := hx a (by simp)
    simp only [List.cons_append, List.dropWhile, ha, List.append_eq]
    exact ih (fun c hc => hx c (by simp [hc]))

theorem hexVal_hexDigitChar (k : Nat) (h : k < 16) : hexVal (hexDigitChar k) = some k := by
  interval_cases k <;> decide

/-- A successful number scan begins with a minus sign or a digit, and a
well-formed lexeme is nonempty. -/
theorem pNumber_some_head (cs lx r : List Char) (h : pNumber cs = some (lx, r)) :
    ∃ c t, cs = c :: t ∧ (c = '-' ∨ c.isDigit = true) := by
  match cs with
  | [] =>
    simp [pNumber, pNumTail, chompInt] at h
  | '-' :: t => exact ⟨'-', t, rfl, Or.inl rfl⟩
  | c :: t =>
    by_cases hc : c = '-'
    · exact ⟨c, t, rfl, Or.inl hc⟩
    · refine ⟨c, t, rfl, Or.inr ?_⟩
      by_cases hdig : c.isDigit
      · exact hdig
      · exfalso
        have hz : c ≠ '0' := by
          intro h0
          subst h0
          exact hdig (by decide)
        have hred : pNumber (c :: t) = pNumTail [] (c :: t) := by
          rw [pNumber.eq_def]
          split
          · rename_i heq
            injection heq with h1 _
            exact absurd h1 hc
          · rfl
        rw [hred, pNumTail] at h
        rw [show chompInt (c :: t) = none by rw [chompInt]; simp [hz, hdig]] at h
        exact Option.noConfusion h

theorem NumTokenOk_head (lx : String) (h : NumTokenOk lx) :
    ∃ c t, lx.data = c :: t ∧ (c = '-' ∨ c.isDigit = true) := by
  have h0 := h [] (by decide)
  rw [List.append_nil] at h0
  exact pNumber_some_head _ _ _ h0

theorem num_head_props (c : Char) (h : c = '-' ∨ c.isDigit = true) :
    jsonWs c = false ∧ c ≠ '"' ∧ c ≠ '{' ∧ c ≠ '[' ∧ c ≠ 'n' ∧ c ≠ 't' ∧ c ≠ 'f' ∧
      c ≠ ']' ∧ c ≠ '}' ∧ c ≠ ',' := by
  rcases h with h | h
  · subst h
    exact ⟨by decide, by decide, by decide, by decide, by decide, by decide, by decide,
      by decide, by decide, by decide⟩
  · have ne : ∀ d : Char, d.isDigit = false → c ≠ d := by
      intro d hd hc
      subst hc
      rw [h] at hd
      exact Bool.noConfusion hd
    refine ⟨?_, ne _ (by decide), ne _ (by decide), ne _ (by decide), ne _ (by decide),
      ne _ (by decide), ne _ (by decide), ne _ (by decide), ne _ (by decide), ne _ (by decide)⟩
    have h1 : c ≠ ' ' := ne _ (by decide)
    have h2 : c ≠ '\t' := ne _ (by decide)
    have h3 : c ≠ '\n' := ne _ (by decide)
    have h4 : c ≠ '\r' := ne _ (by decide)
    simp [jsonWs, h1, h2, h3, h4]

/-! ## String scanner step lemmas and the escape round trip -/
theorem pStr_step_quote (X : List Char) : pStringChars ('"' :: X) = some ([], X) := by
  rw [pStringChars, if_pos rfl]

theorem pStr_step_escQuote (X : List Char) :
    pStringChars ('\\' :: '"' :: X) = (pStringChars X).map (fun p => ('"' :: p.1, p.2)) := by
  rw [pStringChars]
  rw [if_neg (by decide), if_pos rfl]
  rw [pEscape]
  rw [if_neg (by decide)]
  rw [show escMap '"' = some '"' from by decide]

theorem pStr_step_escBack (X : List Char) :
    pStringChars ('\\' :: '\\' :: X) = (pStringChars X).map (fun p => ('\\' :: p.1, p.2)) := by
  rw [pStringChars]
  rw [if_neg (by decide), if_pos rfl]
  rw [pEscape]
  rw [if_neg (by decide)]
  rw [show escMap '\\' = some '\\' from by decide]

theorem pStr_step_plain (c : Char) (X : List Char) (h1 : c ≠ '"') (h2 : c ≠ '\\')
    (h3 : ¬ c.toNat < 32) :
    pStringChars (c :: X) = (pStringChars X).map (fun p => (c :: p.1, p.2)) := by
  rw [pStringChars, if_neg h1, if_neg h2, if_neg h3]

theorem hex4_eval (a b c d : Char) (va vb vc vd : Nat) (ha : hexVal a = some va)
    (hb : hexVal b = some vb) (hc : hexVal c = some vc) (hd : hexVal d = some vd) :
    hex4 a b c d = some (4096 * va + 256 * vb + 16 * vc + vd) := by
  rw [hex4, ha, hb, hc, hd]

theorem pStr_step_u (d3 d4 : Char) (k3 k4 : Nat) (X : List Char)
    (h3 : hexVal d3 = some k3) (h4 : hexVal d4 = some k4) (hk3 : k3 < 16) (hk4 : k4 < 16) :
    pStringChars ('\\' :: 'u' :: '0' :: '0' :: d3 :: d4 :: X) =
      (pStringChars X).map (fun p => (Char.ofNat (16 * k3 + k4) :: p.1, p.2)) := by
  have h0 : hex4 '0' '0' d3 d4 = some (16 * k3 + k4) := by
    have hh := hex4_eval '0' '0' d3 d4 0 0 k3 k4 (by decide) (by decide) h3 h4
    rw [hh]
    norm_num
  rw [pStringChars]
  rw [if_neg (by decide), if_pos rfl]
  rw [pEscape, if_pos rfl]
  rw [pUnicode, h0]
  simp only [Option.map]
  rw [if_neg (by omega), if_neg (by omega)]

/-- Scanning the canonical escape of a string body recovers it exactly. -/
theorem pStringChars_ser (s : List Char) (rest : List Char) :
    pStringChars (serStrChars s ++ '"' :: rest) = some (s, rest) := by
  induction s with
  | nil =>
    have h : serStrChars [] = [] := rfl
    rw [h, List.nil_append, pStr_step_quote]
  | cons c t ih =>
    have hser : serStrChars (c :: t) = escapeChar c ++ serStrChars t := by
      simp [serStrChars]
    rw [hser, List.append_assoc, escapeChar]
    by_cases h1 : c = '"'
    · subst h1
      rw [if_pos rfl]
      simp only [List.cons_append, List.nil_append]
      rw [pStr_step_escQuote, ih]
      rfl
    · by_cases h2 : c = '\\'
      · subst h2
        rw [if_neg h1, if_pos rfl]
        simp only [List.cons_append, List.nil_append]
        rw [pStr_step_escBack, ih]
        rfl
      · by_cases h3 : c.toNat < 32
        · rw [if_neg h1, if_neg h2, if_pos h3]
          simp only [List.cons_append, List.nil_append]
          rw [pStr_step_u (hexDigitChar (c.toNat / 16)) (hexDigitChar (c.toNat % 16))
            (c.toNat / 16) (c.toNat % 16) _
            (hexVal_hexDigitChar _ (by omega)) (hexVal_hexDigitChar _ (by omega))
            (by omega) (by omega)]
          rw [ih]
          have hc : Char.ofNat (16 * (c.toNat / 16) + c.toNat % 16) = c := by
            have hd := Nat.div_add_mod c.toNat 16
            rw [show 16 * (c.toNat / 16) + c.toNat % 16 = c.toNat from hd]
            exact Char.ofNat_toNat c
          rw [hc]
          rfl
        · rw [if_neg h1, if_neg h2, if_neg h3]
          simp only [List.cons_append, List.nil_append]
          rw [pStr_step_plain c _ h1 h2 h3, ih]
          rfl

/-! ## Value scanner step lemmas -/
theorem pv_null (f : Nat) (rest : List Char) :
    pValue (f + 1) ('n' :: 'u' :: 'l' :: 'l' :: rest) = some (.null, rest) := by
  rw [pValue, skipWs_cons _ _ (by decide)]
  simp only [reduceIte, Char.reduceEq, List.isPrefixOf, Bool.and_eq_true, beq_iff_eq,
    List.drop_succ_cons, List.drop_zero, reduceCtorEq, and_self, and_true, true_and, if_true]

theorem pv_true (f : Nat) (rest : List Char) :
    pValue (f + 1) ('t' :: 'r' :: 'u' :: 'e' :: rest) = some (.bool true, rest) := by
  rw [pValue, skipWs_cons _ _ (by decide)]
  simp only [reduceIte, Char.reduceEq, List.isPrefixOf, Bool.and_eq_true, beq_iff_eq,
    List.drop_succ_cons, List.drop_zero, reduceCtorEq, and_self, and_true, true_and, if_true]

theorem pv_false (f : Nat) (rest : List Char) :
    pValue (f + 1) ('f' :: 'a' :: 'l' :: 's' :: 'e' :: rest) = some (.bool false, rest) := by
  rw [pValue, skipWs_cons _ _ (by decide)]
  simp only [reduceIte, Char.reduceEq, List.isPrefixOf, Bool.and_eq_true, beq_iff_eq,
    List.drop_succ_cons, List.drop_zero, reduceCtorEq, and_self, and_true, true_and, if_true]

theorem pv_str (f : Nat) (rest : List Char) :
    pValue (f + 1) ('"' :: rest) =
      (pStringChars rest).map (fun p => (.str (String.mk p.1), p.2)) := by
  rw [pValue, skipWs_cons _ _ (by decide)]
  simp only [reduceIte, Char.reduceEq]

theorem pv_arr (f : Nat) (rest : List Char) :
    pValue (f + 1) ('[' :: rest) =
      (match skipWs rest with
       | ']' :: r => some (.arr [], r)
       | _ => (pItemsLoop f rest).map (fun p => (.arr p.1, p.2))) := by
  rw [pValue, skipWs_cons _ _ (by decide)]
  simp only [reduceIte, Char.reduceEq]

theorem pv_obj (f : Nat) (rest : List Char) :
    pValue (f + 1) ('{' :: rest) =
      (match skipWs rest with
       | '}' :: r => some (.obj [], r)
       | _ => (pPairsLoop f rest).map (fun p => (.obj (dedupPairs p.1), p.2))) := by
  rw [pValue, skipWs_cons _ _ (by decide)]
  simp only [reduceIte, Char.reduceEq]

theorem pv_num (f : Nat) (c : Char) (rest : List Char) (h : c = '-' ∨ c.isDigit = true) :
    pValue (f + 1) (c :: rest) =
      (match pNumber (c :: rest) with
       | some (lx, r) => some (.num (String.mk lx), r)
       | none =>
         if c = '-' ∧ ['I', 'n', 'f', 'i', 'n', 'i', 't', 'y'].isPrefixOf rest then
           some (.num "-Infinity", rest.drop 8)
         else none) := by
  obtain ⟨hws, hq, hbr, hbk, hn, ht, hf, _, _, _⟩ := num_head_props c h
  rw [pValue, skipWs_cons _ _ hws]
  simp only []
  rw [if_neg hq, if_neg hbr, if_neg hbk, if_neg hn, if_neg ht, if_neg hf, if_pos h]

theorem pil_step (f : Nat) (cs : List Char) :
    pItemsLoop (f + 1) cs =
      (match pValue f cs with
       | none => none
       | some (v, r₁) =>
         match skipWs r₁ with
         | ']' :: r₂ => some ([v], r₂)
         | ',' :: r₂ => (pItemsLoop f r₂).map (fun p => (v :: p.1, p.2))
         | _ => none) := by
  rw [pItemsLoop]

theorem ppl_step (f : Nat) (cs : List Char) :
    pPairsLoop (f + 1) cs =
      (match skipWs cs with
       | '"' :: rest =>
         match pStringChars rest with
         | none => none
         | some (key, r₁) =>
           match skipWs r₁ with
           | ':' :: r₂ =>
             match pValue f r₂ with
             | none => none
             | some (v, r₃) =>
               match skipWs r₃ with
               | '}' :: r₄ => some ([(String.mk key, v)], r₄)
               | ',' :: r₄ =>
                 (pPairsLoop f r₄).map (fun p => ((String.mk key, v) :: p.1, p.2))
               | _ => none
           | _ => none
       | _ => none) := by
  rw [pPairsLoop]

/-- The first character of any well-formed serialized value: never whitespace
and never a closing delimiter. -/
theorem jsonSer_head (v : JValue) (hw : JWF v) :
    ∃ c t, jsonSer v = c :: t ∧ jsonWs c = false ∧ c ≠ ']' ∧ c ≠ '}' := by
  match v with
  | .null => exact ⟨'n', _, rfl, by decide, by decide, by decide⟩
  | .bool true => exact ⟨'t', _, rfl, by decide, by decide, by decide⟩
  | .bool false => exact ⟨'f', _, rfl, by decide, by decide, by decide⟩
  | .str s => exact ⟨'"', _, rfl, by decide, by decide, by decide⟩
  | .arr l => exact ⟨'[', _, rfl, by decide, by decide, by decide⟩
  | .obj ps => exact ⟨'{', _, rfl, by decide, by decide, by decide⟩
  | .num lx =>
    obtain ⟨c, t, hdata, hc⟩ := NumTokenOk_head lx hw
    obtain ⟨hws, _, _, _, _, _, _, hbr, hbk, _⟩ := num_head_props c hc
    exact ⟨c, t, by simpa [jsonSer] using hdata, hws, hbr, hbk⟩

theorem objInsert_not_mem (acc : List (String × JValue)) (k : String) (v : JValue)
    (h : k ∉ acc.map Prod.fst) : objInsert acc k v = acc ++ [(k, v)] := by
  induction acc with
  | nil => rfl
  | cons kv t ih =>
    obtain ⟨k0, v0⟩ := kv
    have hk : k0 ≠ k := by
      intro he
      exact h (by simp [he])
    rw [objInsert, if_neg hk, ih (fun hm => h (by simp [hm]))]
    rfl

theorem foldl_objInsert (ps : List (String × JValue)) :
    ∀ acc, ((acc ++ ps).map Prod.fst).Nodup →
      ps.foldl (fun a kv => objInsert a kv.1 kv.2) acc = acc ++ ps := by
  induction ps with
  | nil => intro acc _; simp
  | cons kv t ih =>
    intro acc hnd
    obtain ⟨k, v⟩ := kv
    have hk : k ∉ acc.map Prod.fst := by
      rw [show acc ++ (k, v) :: t = (acc ++ [(k, v)]) ++ t by simp] at hnd
      rw [List.map_append] at hnd
      have h1 := (List.nodup_append.mp hnd).1
      rw [List.map_append] at h1
      have h2 := (List.nodup_append.mp h1).2.2
      intro hm
      exact h2 hm (by simp)
    rw [List.foldl_cons]
    rw [objInsert_not_mem acc k v hk]
    rw [ih (acc ++ [(k, v)]) (by simpa using hnd)]
    simp

/-- On key-distinct pair lists, dict insertion is the identity. -/
theorem dedupPairs_nodup (ps : List (String × JValue))
    (h : (ps.map Prod.fst).Nodup) : dedupPairs ps = ps := by
  have := foldl_objInsert ps [] (by simpa using h)
  simpa [dedupPairs] using this

/-! ## Round trip: scanning a canonical serialization recovers the value -/
mutual

theorem pValue_ser (v : JValue) (rest : List Char) (fuel : Nat) (hw : JWF v)
    (hf : (jsonSer v).length + 1 ≤ fuel) (hr : numFollowOkB rest = true) :
    pValue fuel (jsonSer v ++ rest) = some (v, rest) := by
  match fuel with
  | 0 =>
    rw [jsonSer.eq_def] at hf
    exact absurd hf (by omega)
  | f + 1 =>
    match v with
    | .null =>
      simp only [jsonSer, List.cons_append, List.nil_append]
      exact pv_null f rest
    | .bool true =>
      simp only [jsonSer, List.cons_append, List.nil_append]
      exact pv_true f rest
    | .bool false =>
      simp only [jsonSer, List.cons_append, List.nil_append]
      exact pv_false f rest
    | .str s =>
      simp only [jsonSer, List.cons_append, List.append_assoc, List.nil_append]
      rw [pv_str, pStringChars_ser]
      rfl
    | .num lx =>
      obtain ⟨d⟩ := lx
      rw [JWF] at hw
      obtain ⟨c, t, hdata, hc⟩ := NumTokenOk_head _ hw
      have hd : d = c :: t := hdata
      subst hd
      have hnum' : pNumber (c :: (t ++ rest)) = some (c :: t, rest) := by
        have hh := hw rest hr
        simpa using hh
      simp only [jsonSer]
      show pValue (f + 1) ((c :: t) ++ rest) = _
      simp only [List.cons_append]
      rw [pv_num f c (t ++ rest) hc, hnum']
    | .arr l =>
      rw [JWF] at hw
      have hj : jsonSer (.arr l) = '[' :: serItems l ++ [']'] := by rw [jsonSer]
      have hlen : (serItems l).length + 2 ≤ f := by
        rw [hj] at hf
        simp only [List.length_cons, List.length_append, List.length_nil] at hf
        omega
      simp only [jsonSer, List.cons_append, List.append_assoc, List.nil_append]
      rw [pv_arr]
      match l with
      | [] =>
        simp only [serItems, List.nil_append]
        rw [skipWs_cons _ _ (by decide)]
        simp only []
      | v1 :: t =>
        rw [JWFItems] at hw
        obtain ⟨c, ct, hserhead, hws, hbr, _⟩ := jsonSer_head v1 hw.1
        obtain ⟨X, hX⟩ : ∃ X, serItems (v1 :: t) = jsonSer v1 ++ X := by
          match t with
          | [] => exact ⟨[], by simp [serItems]⟩
          | y :: ys => exact ⟨',' :: serItems (y :: ys), by rw [serItems]⟩
        have hscr : skipWs (serItems (v1 :: t) ++ ']' :: rest)
            = c :: (ct ++ X ++ ']' :: rest) := by
          rw [hX, hserhead]
          simp only [List.cons_append, List.append_assoc]
          rw [skipWs_cons _ _ hws]
        rw [hscr]
        split
        · rename_i r heq
          injection heq with h1 _
          exact absurd h1 hbr
        · rw [pItemsLoop_ser (v1 :: t) (by simp) rest f ⟨hw.1, hw.2⟩ (by omega)]
          rfl
    | .obj ps =>
      rw [JWF] at hw
      have hj : jsonSer (.obj ps) = '{' :: serPairs ps ++ ['}'] := by rw [jsonSer]
      have hlen : (serPairs ps).length + 2 ≤ f := by
        rw [hj] at hf
        simp only [List.length_cons, List.length_append, List.length_nil] at hf
        omega
      simp only [jsonSer, List.cons_append, List.append_assoc, List.nil_append]
      rw [pv_obj]
      match ps with
      | [] =>
        simp only [serPairs, List.nil_append]
        rw [skipWs_cons _ _ (by decide)]
        simp [dedupPairs]
      | kv :: t =>
        obtain ⟨Y, hY⟩ : ∃ Y, serPairs (kv :: t) = '"' :: Y := by
          obtain ⟨k, v⟩ := kv
          match t with
          | [] =>
            refine ⟨serStrChars k.data ++ '"' :: ':' :: jsonSer v, ?_⟩
            rw [serPairs]
            try simp [List.cons_append, List.append_assoc]
          | y :: ys =>
            refine ⟨serStrChars k.data ++ '"' :: ':' :: jsonSer v ++ ',' :: serPairs (y :: ys), ?_⟩
            rw [serPairs]
            try simp [List.cons_append, List.append_assoc]
        rw [hY]
        simp only [List.cons_append]
        rw [skipWs_cons _ _ (by decide)]
        show (pPairsLoop f ('"' :: (Y ++ '}' :: rest))).map
            (fun p => (JValue.obj (dedupPairs p.1), p.2)) = some (JValue.obj (kv :: t), rest)
        rw [show ('"' :: (Y ++ '}' :: rest)) = serPairs (kv :: t) ++ '}' :: rest from by
          rw [hY]
          simp]
        rw [pPairsLoop_ser (kv :: t) (by simp) rest f hw.2 (by omega)]
        simp only [Option.map]
        rw [dedupPairs_nodup _ hw.1]

theorem pItemsLoop_ser (l : List JValue) (hl : l ≠ []) (rest : List Char) (fuel : Nat)
    (hw : JWFItems l) (hf : (serItems l).length + 2 ≤ fuel) :
    pItemsLoop fuel (serItems l ++ ']' :: rest) = some (l, rest) := by
  match fuel with
  | 0 => exact absurd hf (by omega)
  | f + 1 =>
    match l with
    | [] => exact absurd rfl hl
    | [v] =>
      rw [JWFItems] at hw
      have hlen : (jsonSer v).length + 1 ≤ f := by
        rw [show serItems [v] = jsonSer v from by rw [serItems]] at hf
        omega
      rw [show serItems [v] = jsonSer v from by rw [serItems]]
      rw [pil_step]
      rw [pValue_ser v (']' :: rest) f hw.1 (by omega) (by rfl)]
      show some ([v], rest) = some ([v], rest)
      rfl
    | v :: y :: t =>
      rw [JWFItems] at hw
      have hsi : serItems (v :: y :: t) = jsonSer v ++ ',' :: serItems (y :: t) := by
        rw [serItems]
      have hlen1 : (jsonSer v).length + 1 ≤ f := by
        rw [hsi] at hf
        simp only [List.length_append, List.length_cons] at hf
        omega
      have hlen2 : (serItems (y :: t)).length + 2 ≤ f := by
        rw [hsi] at hf
        simp only [List.length_append, List.length_cons] at hf
        omega
      rw [hsi]
      rw [show (jsonSer v ++ ',' :: serItems (y :: t)) ++ ']' :: rest
          = jsonSer v ++ ',' :: (serItems (y :: t) ++ ']' :: rest) from by
        simp [List.append_assoc]]
      rw [pil_step]
      rw [pValue_ser v (',' :: (serItems (y :: t) ++ ']' :: rest)) f hw.1 (by omega) (by rfl)]
      show (pItemsLoop f (serItems (y :: t) ++ ']' :: rest)).map (fun p => (v :: p.1, p.2))
          = some (v :: y :: t, rest)
      rw [pItemsLoop_ser (y :: t) (by simp) rest f hw.2 (by omega)]
      rfl

theorem pPairsLoop_ser (ps : List (String × JValue)) (hps : ps ≠ []) (rest : List Char)
    (fuel : Nat) (hw : JWFPairs ps) (hf : (serPairs ps).length + 2 ≤ fuel) :
    pPairsLoop fuel (serPairs ps ++ '}' :: rest) = some (ps, rest) := by
  match fuel with
  | 0 => exact absurd hf (by omega)
  | f + 1 =>
    match ps with
    | [] => exact absurd rfl hps
    | [(k, v)] =>
      rw [JWFPairs] at hw
      have hsp : serPairs [(k, v)] = '"' :: serStrChars k.data ++ '"' :: ':' :: jsonSer v := by
        rw [serPairs]
      have hlen : (jsonSer v).length + 1 ≤ f := by
        rw [hsp] at hf
        simp only [List.length_append, List.length_cons] at hf
        omega
      rw [hsp]
      rw [ppl_step]
      rw [show ('"' :: serStrChars k.data ++ '"' :: ':' :: jsonSer v) ++ '}' :: rest
          = '"' :: (serStrChars k.data ++ '"' :: (':' :: (jsonSer v ++ '}' :: rest))) from by
        simp [List.append_assoc]]
      rw [skipWs_cons _ _ (by decide)]
      show (match pStringChars (serStrChars k.data ++ '"' :: (':' :: (jsonSer v ++ '}' :: rest))) with
       | none => none
       | some (key, r₁) =>
         match skipWs r₁ with
         | ':' :: r₂ =>
           match pValue f r₂ with
           | none => none
           | some (w, r₃) =>
             match skipWs r₃ with
             | '}' :: r₄ => some ([(String.mk key, w)], r₄)
             | ',' :: r₄ =>
               (pPairsLoop f r₄).map (fun p => ((String.mk key, w) :: p.1, p.2))
             | _ => none
         | _ => none) = some ([(k, v)], rest)
      rw [pStringChars_ser]
      show (match skipWs (':' :: (jsonSer v ++ '}' :: rest)) with
       | ':' :: r₂ =>
         match pValue f r₂ with
         | none => none
         | some (w, r₃) =>
           match skipWs r₃ with
           | '}' :: r₄ => some ([(String.mk k.data, w)], r₄)
           | ',' :: r₄ =>
             (pPairsLoop f r₄).map (fun p => ((String.mk k.data, w) :: p.1, p.2))
           | _ => none
       | _ => none) = some ([(k, v)], rest)
      rw [skipWs_cons _ _ (by decide)]
      show (match pValue f (jsonSer v ++ '}' :: rest) with
       | none => none
       | some (w, r₃) =>
         match skipWs r₃ with
         | '}' :: r₄ => some ([(String.mk k.data, w)], r₄)
         | ',' :: r₄ =>
           (pPairsLoop f r₄).map (fun p => ((String.mk k.data, w) :: p.1, p.2))
         | _ => none) = some ([(k, v)], rest)
      rw [pValue_ser v ('}' :: rest) f hw.1 (by omega) (by rfl)]
      show some ([(String.mk k.data, v)], rest) = some ([(k, v)], rest)
      cases k
      rfl
    | (k, v) :: p2 :: t =>
      rw [JWFPairs] at hw
      have hsp : serPairs ((k, v) :: p2 :: t)
          = ('"' :: serStrChars k.data ++ '"' :: ':' :: jsonSer v) ++ ',' :: serPairs (p2 :: t) := by
        rw [serPairs]
      have hlen1 : (jsonSer v).length + 1 ≤ f := by
        rw [hsp] at hf
        simp only [List.length_append, List.length_cons] at hf
        omega
      have hlen2 : (serPairs (p2 :: t)).length + 2 ≤ f := by
        rw [hsp] at hf
        simp only [List.length_append, List.length_cons] at hf
        omega
      rw [hsp]
      rw [show (('"' :: serStrChars k.data ++ '"' :: ':' :: jsonSer v) ++ ',' :: serPairs (p2 :: t)) ++ '}' :: rest
          = '"' :: (serStrChars k.data ++ '"' :: (':' :: (jsonSer v ++ ',' :: (serPairs (p2 :: t) ++ '}' :: rest)))) from by
        simp [List.append_assoc]]
      rw [ppl_step]
      rw [skipWs_cons _ _ (by decide)]
      show (match pStringChars (serStrChars k.data ++ '"' :: (':' :: (jsonSer v ++ ',' :: (serPairs (p2 :: t) ++ '}' :: rest)))) with
       | none => none
       | some (key, r₁) =>
         match skipWs r₁ with
         | ':' :: r₂ =>
           match pValue f r₂ with
           | none => none
           | some (w, r₃) =>
             match skipWs r₃ with
             | '}' :: r₄ => some ([(String.mk key, w)], r₄)
             | ',' :: r₄ =>
               (pPairsLoop f r₄).map (fun p => ((String.mk key, w) :: p.1, p.2))
             | _ => none
         | _ => none) = some ((k, v) :: p2 :: t, rest)
      rw [pStringChars_ser]
      show (match skipWs (':' :: (jsonSer v ++ ',' :: (serPairs (p2 :: t) ++ '}' :: rest))) with
       | ':' :: r₂ =>
         match pValue f r₂ with
         | none => none
         | some (w, r₃) =>
           match skipWs r₃ with
           | '}' :: r₄ => some ([(String.mk k.data, w)], r₄)
           | ',' :: r₄ =>
             (pPairsLoop f r₄).map (fun p => ((String.mk k.data, w) :: p.1, p.2))
           | _ => none
       | _ => none) = some ((k, v) :: p2 :: t, rest)
      rw [skipWs_cons _ _ (by decide)]
      show (match pValue f (jsonSer v ++ ',' :: (serPairs (p2 :: t) ++ '}' :: rest)) with
       | none => none
       | some (w, r₃) =>
         match skipWs r₃ with
         | '}' :: r₄ => some ([(String.mk k.data, w)], r₄)
         | ',' :: r₄ =>
           (pPairsLoop f r₄).map (fun p => ((String.mk k.data, w) :: p.1, p.2))
         | _ => none) = some ((k, v) :: p2 :: t, rest)
      rw [pValue_ser v (',' :: (serPairs (p2 :: t) ++ '}' :: rest)) f hw.1 (by omega) (by rfl)]
      show (pPairsLoop f (serPairs (p2 :: t) ++ '}' :: rest)).map
          (fun p => ((String.mk k.data, v) :: p.1, p.2)) = some ((k, v) :: p2 :: t, rest)
      rw [pPairsLoop_ser (p2 :: t) (by simp) rest f hw.2 (by omega)]
      cases k
      rfl

end

/-! ## Failure of the trailing-comma variant -/
theorem pValue_close_none (f : Nat) (r : List Char) : pValue f (']' :: r) = none := by
  match f with
  | 0 => rw [pValue]
  | f + 1 =>
    rw [pValue, skipWs_cons _ _ (by decide)]
    show none = none
    rfl

theorem pValue_comma_none (f : Nat) (r : List Char) : pValue f (',' :: r) = none := by
  match f with
  | 0 => rw [pValue]
  | f + 1 =>
    rw [pValue, skipWs_cons _ _ (by decide)]
    show none = none
    rfl

theorem pItemsLoop_close_none (f : Nat) (r : List Char) : pItemsLoop f (']' :: r) = none := by
  match f with
  | 0 => rw [pItemsLoop]
  | f + 1 =>
    rw [pil_step, pValue_close_none]

theorem pItemsLoop_comma_none (f : Nat) (r : List Char) : pItemsLoop f (',' :: r) = none := by
  match f with
  | 0 => rw [pItemsLoop]
  | f + 1 =>
    rw [pil_step, pValue_comma_none]

/-- Scanning a serialized non-empty item list followed by a trailing comma and
the closing bracket fails: after the last item the scanner sees the comma and
then expects a value, not `]`. -/
theorem pItemsLoop_variant (l : List JValue) (hl : l ≠ []) (rest : List Char) (fuel : Nat)
    (hw : JWFItems l) (hf : (serItems l).length + 2 ≤ fuel) :
    pItemsLoop fuel (serItems l ++ ',' :: ']' :: rest) = none := by
  match fuel with
  | 0 => exact absurd hf (by omega)
  | f + 1 =>
    match l with
    | [] => exact absurd rfl hl
    | [v] =>
      rw [JWFItems] at hw
      have hlen : (jsonSer v).length + 1 ≤ f := by
        rw [show serItems [v] = jsonSer v from by rw [serItems]] at hf
        omega
      rw [show serItems [v] = jsonSer v from by rw [serItems]]
      rw [pil_step]
      rw [pValue_ser v (',' :: ']' :: rest) f hw.1 (by omega) (by rfl)]
      show (pItemsLoop f (']' :: rest)).map (fun p => (v :: p.1, p.2)) = none
      rw [pItemsLoop_close_none]
      rfl
    | v :: y :: t =>
      rw [JWFItems] at hw
      have hsi : serItems (v :: y :: t) = jsonSer v ++ ',' :: serItems (y :: t) := by
        rw [serItems]
      have hlen1 : (jsonSer v).length + 1 ≤ f := by
        rw [hsi] at hf
        simp only [List.length_append, List.length_cons] at hf
        omega
      have hlen2 : (serItems (y :: t)).length + 2 ≤ f := by
        rw [hsi] at hf
        simp only [List.length_append, List.length_cons] at hf
        omega
      rw [hsi]
      rw [show (jsonSer v ++ ',' :: serItems (y :: t)) ++ ',' :: ']' :: rest
          = jsonSer v ++ ',' :: (serItems (y :: t) ++ ',' :: ']' :: rest) from by
        simp [List.append_assoc]]
      rw [pil_step]
      rw [pValue_ser v (',' :: (serItems (y :: t) ++ ',' :: ']' :: rest)) f hw.1 (by omega)
        (by rfl)]
      show (pItemsLoop f (serItems (y :: t) ++ ',' :: ']' :: rest)).map
          (fun p => (v :: p.1, p.2)) = none
      rw [pItemsLoop_variant (y :: t) (by simp) rest f hw.2 (by omega)]
      rfl

/-- Decoding a canonical array serialization yields exactly the array. -/
theorem json_loads_ser (l : List JValue) (hw : JWFItems l) :
    json_loads (jsonSer (.arr l)) = some (.arr l) := by
  have hj : JWF (.arr l) := by
    rw [JWF]
    exact hw
  have hp := pValue_ser (.arr l) [] (2 * (jsonSer (.arr l)).length + 2) hj (by omega) (by rfl)
  rw [List.append_nil] at hp
  rw [json_loads, hp]
  rfl

/-- Scanning the trailing-comma variant of an array fails. -/
theorem pValue_variant_none (l : List JValue) (hw : JWFItems l) (F : Nat)
    (hFlen : (serItems l).length + 2 ≤ F) :
    pValue (F + 1) ('[' :: (serItems l ++ ',' :: ']' :: [])) = none := by
  rw [pv_arr]
  match l with
  | [] =>
    rw [show ((serItems [] : List Char) ++ ',' :: ']' :: []) = ',' :: ']' :: [] from by
      rw [serItems]
      rfl]
    rw [skipWs_cons _ _ (by decide)]
    show (pItemsLoop F (',' :: ']' :: [])).map (fun p => (JValue.arr p.1, p.2)) = none
    rw [pItemsLoop_comma_none]
    rfl
  | v1 :: t =>
    rw [JWFItems] at hw
    obtain ⟨c, ct, hserhead, hws, hbr, _⟩ := jsonSer_head v1 hw.1
    obtain ⟨X, hX⟩ : ∃ X, serItems (v1 :: t) = jsonSer v1 ++ X := by
      match t with
      | [] => exact ⟨[], by simp [serItems]⟩
      | y :: ys => exact ⟨',' :: serItems (y :: ys), by rw [serItems]⟩
    have hscr : skipWs (serItems (v1 :: t) ++ ',' :: ']' :: [])
        = c :: (ct ++ X ++ ',' :: ']' :: []) := by
      rw [hX, hserhead]
      simp only [List.cons_append, List.append_assoc]
      rw [skipWs_cons _ _ hws]
    rw [hscr]
    split
    · rename_i r heq
      injection heq with hh _
      exact absurd hh hbr
    · rw [pItemsLoop_variant (v1 :: t) (by simp) [] F ⟨hw.1, hw.2⟩ (by omega)]
      rfl

/-- Strict decoding of the trailing-comma variant fails. -/
theorem json_loads_variant (l : List JValue) (hw : JWFItems l) :
    json_loads ('[' :: serItems l ++ [',', ']']) = none := by
  rw [json_loads]
  obtain ⟨F, hF⟩ : ∃ F, 2 * ('[' :: serItems l ++ [',', ']']).length + 2 = F + 1 :=
    ⟨2 * ('[' :: serItems l ++ [',', ']']).length + 1, by omega⟩
  have hFlen : (serItems l).length + 2 ≤ F := by
    simp only [List.length_cons, List.length_append] at hF
    omega
  rw [hF]
  rw [show ('[' :: serItems l ++ [',', ']'] : List Char)
      = '[' :: (serItems l ++ ',' :: ']' :: []) from by simp]
  rw [pValue_variant_none l hw F hFlen]

theorem cleanScan_nil_any (fuel : Nat) : cleanScan fuel [] = [] := by
  match fuel with
  | 0 => rw [cleanScan]
  | f + 1 => rw [cleanScan]

/-- The repair scan strips exactly the one inserted trailing comma when the
body has no comma-bracket pattern of its own. -/
theorem cleanScan_no_match (body : List Char) : ∀ fuel, noCommaBracket body = true →
    body.length + 2 ≤ fuel → cleanScan fuel (body ++ [',', ']']) = body ++ [']'] := by
  induction body with
  | nil =>
    intro fuel _ hf
    match fuel with
    | f + 1 =>
      rw [List.nil_append, cleanScan, if_pos rfl]
      show (([']'] : List Char).takeWhile pyWs) ++ ']' :: cleanScan f [] = [']']
      rw [cleanScan_nil_any]
      rfl
  | cons c body ih =>
    intro fuel hnc hf
    match fuel with
    | f + 1 =>
      have hf2 : body.length + 2 ≤ f := by
        simp only [List.length_cons] at hf
        omega
      by_cases hc : c = ','
      · subst hc
        rw [List.cons_append, cleanScan, if_pos rfl]
        rw [noCommaBracket, if_pos rfl] at hnc
        cases hd : body.dropWhile pyWs with
        | nil =>
          rw [hd] at hnc
          have hnc2 : noCommaBracket body = true := hnc
          have hdrop : (body ++ [',', ']']).dropWhile pyWs = [',', ']'] := by
            rw [dropWhile_append_split, hd]
            rfl
          rw [hdrop]
          show ',' :: cleanScan f (body ++ [',', ']']) = (',' :: body) ++ [']']
          rw [ih f hnc2 hf2]
          rfl
        | cons b tail =>
          rw [hd] at hnc
          have hnc2 : (if b = ']' ∨ b = '}' then false else noCommaBracket body) = true := hnc
          by_cases hb : b = ']' ∨ b = '}'
          · rw [if_pos hb] at hnc2
            exact absurd hnc2 (by decide)
          · rw [if_neg hb] at hnc2
            have hdrop : (body ++ [',', ']']).dropWhile pyWs = b :: (tail ++ [',', ']']) := by
              rw [dropWhile_append_split, hd]
              simp
            rw [hdrop]
            show (if b = ']' ∨ b = '}' then
                (body ++ [',', ']']).takeWhile pyWs ++ b :: cleanScan f (tail ++ [',', ']'])
              else ',' :: cleanScan f (body ++ [',', ']'])) = (',' :: body) ++ [']']
            rw [if_neg hb]
            rw [ih f hnc2 hf2]
            rfl
      · rw [List.cons_append, cleanScan, if_neg hc]
        rw [noCommaBracket, if_neg hc] at hnc
        rw [ih f hnc hf2]
        rfl

/-- `_clean_json` on the trailing-comma variant yields the canonical
serialization back. -/
theorem clean_json_variant (l : List JValue) (h : noCommaBracket (serItems l) = true) :
    _clean_json ('[' :: serItems l ++ [',', ']']) = jsonSer (.arr l) := by
  rw [_clean_json]
  rw [show ('[' :: serItems l ++ [',', ']'] : List Char)
      = '[' :: (serItems l ++ [',', ']']) from by simp]
  rw [show ('[' :: (serItems l ++ [',', ']']) : List Char).length + 1
      = ((serItems l).length + 3) + 1 from by simp]
  rw [cleanScan, if_neg (by decide)]
  rw [cleanScan_no_match (serItems l) ((serItems l).length + 3) h (by omega)]
  rw [jsonSer]
  simp

/-! ## Greedy extraction from surrounding prose -/
/-- The greedy bracketed-array search on prose-wrapped text finds exactly the
bracketed segment, provided the leading prose has no `[` and the trailing
prose has no `]`. -/
theorem findGreedy_extract (p1 mid p2 : List Char) (h1 : '[' ∉ p1) (h2 : ']' ∉ p2) :
    findGreedy '[' ']' (p1 ++ ('[' :: mid ++ [']']) ++ p2) = some ('[' :: mid ++ [']']) := by
  have hp1 : ∀ c ∈ p1, (c != '[') = true := by
    intro c hc
    have : c ≠ '[' := fun he => h1 (he ▸ hc)
    simpa using this
  have hp2 : ∀ c ∈ p2.reverse, (c != ']') = true := by
    intro c hc
    have : c ≠ ']' := fun he => h2 (he ▸ (List.mem_reverse.mp hc))
    simpa using this
  rw [findGreedy]
  have htext : p1 ++ ('[' :: mid ++ [']']) ++ p2 = p1 ++ '[' :: (mid ++ ']' :: p2) := by
    simp
  rw [htext]
  rw [takeWhile_append_stop _ p1 '[' (mid ++ ']' :: p2) hp1 (by decide)]
  rw [show (p1 ++ '[' :: (mid ++ ']' :: p2)).drop p1.length = '[' :: (mid ++ ']' :: p2) from
    List.drop_left p1 _]
  show (match ('[' :: (mid ++ ']' :: p2)).reverse.dropWhile (fun c => c != ']') with
    | [] => none
    | _ :: _ => some (('[' :: (mid ++ ']' :: p2)).reverse.dropWhile (fun c => c != ']')).reverse)
      = some ('[' :: mid ++ [']'])
  have hrev : ('[' :: (mid ++ ']' :: p2)).reverse = p2.reverse ++ ']' :: (mid.reverse ++ ['[']) := by
    simp
  rw [hrev]
  rw [dropWhile_append_stop _ p2.reverse ']' (mid.reverse ++ ['[']) hp2 (by decide)]
  show some ((']' :: (mid.reverse ++ ['['])).reverse) = some ('[' :: mid ++ [']'])
  simp

theorem decode_phase_iff (js : List Char) (l : List JValue) :
    (match json_loads js with
     | some data => finishParse data
     | none =>
       match json_loads (_clean_json js) with
       | some data => finishParse data
       | none => Except.error ("Invalid JSON in LLM response")) = Except.ok l ↔
    (decodeLenient js = some (.arr l) ∨
      ∃ ps, decodeLenient js = some (.obj ps) ∧ l = [.obj ps]) := by
  rw [decodeLenient]
  cases h1 : json_loads js with
  | some v =>
    cases v with
    | null => simp [finishParse]
    | bool b => simp [finishParse]
    | num lx => simp [finishParse]
    | str s => simp [finishParse]
    | arr items => simp [finishParse, eq_comm]
    | obj pairs => simp [finishParse, eq_comm]
  | none =>
    cases h2 : json_loads (_clean_json js) with
    | some v =>
      cases v with
      | null => simp [finishParse]
      | bool b => simp [finishParse]
      | num lx => simp [finishParse]
      | str s => simp [finishParse]
      | arr items => simp [finishParse, eq_comm]
      | obj pairs => simp [finishParse, eq_comm]
    | none => simp

/-- Claim C1 (amended): the Response Parser is all-or-nothing.  It returns
`ok l` exactly when a candidate is extracted and its (possibly repaired)
decode is the array `l` itself, or an object wrapped as the one-element list
`l`; nothing is dropped, but the list may be empty and its elements need not
be mappings. -/
theorem parse_llm_response_characterization (text : String) (l : List JValue) :
    _parse_llm_response text = .ok l ↔
      ∃ js, extractCandidate text = some js ∧
        (decodeLenient js = some (.arr l) ∨
          ∃ ps, decodeLenient js = some (.obj ps) ∧ l = [.obj ps]) := by
  rw [_parse_llm_response, extractCandidate]
  cases hfa : findGreedy '[' ']' text.data with
  | some js =>
    rw [decode_phase_iff js l]
    simp
  | none =>
    cases hfo : findGreedy '{' '}' text.data with
    | some ob =>
      rw [decode_phase_iff ('[' :: ob ++ [']']) l]
      simp
    | none => simp

/-- Claim C1, counterexample to the claim as stated: on input `"[]"` the
parser returns the empty list (neither a non-empty list nor a failure), and
on `"[1, 2]"` it returns elements that are not mapping-like records. -/
theorem parse_llm_response_counterexample :
    _parse_llm_response ("[]") = .ok [] ∧
    _parse_llm_response ("[1, 2]") = .ok [.num ("1"), .num ("2")] := ⟨rfl, rfl⟩

/-! ## Claim C6: round-trip through prose and trailing-comma repair -/
theorem parse_of_extract (text : String) (mid : List Char)
    (hfind : findGreedy '[' ']' text.data = some mid) :
    _parse_llm_response text =
      (match json_loads mid with
       | some data => finishParse data
       | none =>
         match json_loads (_clean_json mid) with
         | some data => finishParse data
         | none => Except.error ("Invalid JSON in LLM response")) := by
  rw [_parse_llm_response, hfind]

/-- Claim C6 (amended): a well-formed array serialization embedded in prose
whose leading part has no opening bracket and whose trailing part has no
closing bracket parses to exactly the serialized records; with one trailing
comma inserted before the closing bracket, the same holds provided no string
inside the serialization itself contains a comma-whitespace-bracket pattern
(which the repair pass would also strip). -/
theorem parse_llm_response_roundtrip (l : List JValue) (p1 p2 : String)
    (hw : JWFItems l) (h1 : '[' ∉ p1.data) (h2 : ']' ∉ p2.data) :
    _parse_llm_response (p1 ++ String.mk (jsonSer (.arr l)) ++ p2) = .ok l ∧
    (noCommaBracket (serItems l) = true →
      _parse_llm_response (p1 ++ String.mk ('[' :: serItems l ++ [',', ']']) ++ p2) = .ok l) := by
  have harr : jsonSer (.arr l) = '[' :: serItems l ++ [']'] := by rw [jsonSer]
  constructor
  · have hdata : (p1 ++ String.mk (jsonSer (.arr l)) ++ p2).data
        = p1.data ++ ('[' :: serItems l ++ [']']) ++ p2.data := by
      rw [String.data_append, String.data_append]
      rw [show (String.mk (jsonSer (.arr l))).data = jsonSer (.arr l) from rfl, harr]
    have hfind : findGreedy '[' ']' (p1 ++ String.mk (jsonSer (.arr l)) ++ p2).data
        = some (jsonSer (.arr l)) := by
      rw [hdata, harr]
      exact findGreedy_extract p1.data (serItems l) p2.data h1 h2
    rw [parse_of_extract _ _ hfind, json_loads_ser l hw]
    rfl
  · intro hnc
    have hvar : ('[' :: serItems l ++ [',', ']'] : List Char)
        = '[' :: (serItems l ++ [',']) ++ [']'] := by simp
    have hdata : (p1 ++ String.mk ('[' :: serItems l ++ [',', ']']) ++ p2).data
        = p1.data ++ ('[' :: (serItems l ++ [',']) ++ [']']) ++ p2.data := by
      rw [String.data_append, String.data_append]
      rw [show (String.mk ('[' :: serItems l ++ [',', ']'])).data
          = '[' :: serItems l ++ [',', ']'] from rfl, hvar]
    have hfind : findGreedy '[' ']' (p1 ++ String.mk ('[' :: serItems l ++ [',', ']']) ++ p2).data
        = some ('[' :: serItems l ++ [',', ']']) := by
      rw [hdata, hvar]
      exact findGreedy_extract p1.data (serItems l ++ [',']) p2.data h1 h2
    rw [parse_of_extract _ _ hfind, json_loads_variant l hw]
    rw [clean_json_variant l hnc, json_loads_ser l hw]
    rfl

/-- Claim C6, counterexample to the claim as stated, at two concrete inputs.
With records `[1]` and surrounding prose `"x[y"` before the array, the greedy
bracket search captures the prose bracket and parsing fails.  With the
records `["a ,]"]` and a trailing comma, the repair pass also strips the
comma inside the string value, so the parse succeeds but returns a different
record (`"a ]"`). -/
theorem parse_llm_response_roundtrip_counterexample :
    _parse_llm_response ("x[y[1]") = .error ("Invalid JSON in LLM response") ∧
    _parse_llm_response ("[\"a ,]\",]") = .ok [.str ("a ]")] ∧
    ("a ]" : String) ≠ "a ,]" := ⟨rfl, rfl, by decide⟩

theorem genLoopAux_all_fail (cfg : GenerationConfig)
    (respond : Nat → Except String String) (uuid : Nat → String)
    (ts mt st : String) (d : DifficultyLevel) (n : Nat) (hn : 1 ≤ n)
    (hfail : ∀ k t, respond k = .ok t →
      ∃ e, _parse_llm_response t = Except.error e) :
    ∀ fuel attempts ctr,
      genLoopAux cfg respond uuid ts mt st d n fuel ([], attempts, ctr)
        = ([], attempts + fuel, ctr) := by
  intro fuel
  induction fuel with
  | zero => intro attempts ctr; simp [genLoopAux]
  | succ f ih =>
    intro attempts ctr
    rw [genLoopAux]
    have hlt : ([] : List Question).length < n := hn
    rw [if_pos hlt]
    cases hr : respond (attempts + 1) with
    | error e =>
      show genLoopAux cfg respond uuid ts mt st d n f ([], attempts + 1, ctr)
        = ([], attempts + (f + 1), ctr)
      rw [ih]
      have h2 : attempts + 1 + f = attempts + (f + 1) := by omega
      rw [h2]
    | ok t =>
      obtain ⟨e, he⟩ := hfail (attempts + 1) t hr
      show (match _parse_llm_response t with
        | Except.error _ =>
          genLoopAux cfg respond uuid ts mt st d n f ([], attempts + 1, ctr)
        | Except.ok question_dicts =>
          match acceptLoop cfg uuid ts mt st d n question_dicts ([], ctr) with
          | (questions2, ctr2) =>
            genLoopAux cfg respond uuid ts mt st d n f
              (questions2, attempts + 1, ctr2))
        = ([], attempts + (f + 1), ctr)
      rw [he]
      show genLoopAux cfg respond uuid ts mt st d n f ([], attempts + 1, ctr)
        = ([], attempts + (f + 1), ctr)
      rw [ih]
      have h3 : attempts + 1 + f = attempts + (f + 1) := by omega
      rw [h3]

/-- Claim C4: with `n ≥ 1` and a model-call collaborator from which no
question is ever accepted because every successful call returns unparseable
text, the Generation Loop performs exactly `n * (1 + max_validation_retries)`
attempts, accepts nothing, and raises `MCQGenerationError` naming that
attempt count. -/
theorem generation_retry_bound (cfg : GenerationConfig)
    (respond : Nat → Except String String) (uuid : Nat → String)
    (mt st : String) (d : DifficultyLevel) (n : Nat) (ts : Option String)
    (hn : 1 ≤ n)
    (hfail : ∀ k t, respond k = Except.ok t →
      ∃ e, _parse_llm_response t = Except.error e) :
    generation_run cfg respond uuid mt st d n ts
      = ([], n * (1 + cfg.max_validation_retries), 0) ∧
    generate_mcqs cfg respond uuid mt st d n ts
      = Except.error ("Failed to generate any valid questions after " ++
          toString (n * (1 + cfg.max_validation_retries)) ++ " attempts") := by
  have hrun : generation_run cfg respond uuid mt st d n ts
      = ([], n * (1 + cfg.max_validation_retries), 0) := by
    rw [generation_run, genLoopAux_all_fail cfg respond uuid
      (resolve_test_section ts mt) mt st d n hn hfail]
    rw [Nat.zero_add]
  refine ⟨hrun, ?_⟩
  rw [generate_mcqs, hrun]
  rfl

/-- Witness for C4 at a concrete input: three questions requested from a
stub that always answers with bracket-free text, under the default
configuration (retry limit 2), gives exactly nine attempts and the error. -/
theorem generation_retry_bound_witness :
    generation_run {} (fun _ => Except.ok ("no json here"))
        (fun _ => "id") ("T") ("S") DifficultyLevel.EASY 3 none
      = ([], 3 * (1 + (GenerationConfig.max_validation_retries {})), 0) ∧
    generate_mcqs {} (fun _ => Except.ok ("no json here"))
        (fun _ => "id") ("T") ("S") DifficultyLevel.EASY 3 none
      = Except.error ("Failed to generate any valid questions after " ++
          toString (3 * (1 + (GenerationConfig.max_validation_retries {}))) ++
          " attempts") := by
  refine generation_retry_bound {} (fun _ => Except.ok ("no json here"))
    (fun _ => "id") ("T") ("S") DifficultyLevel.EASY 3 none (by decide) ?_
  intro k t h
  cases h
  exact ⟨"No JSON found in LLM response", rfl⟩

/-- Claim C5 (amended): for `n ≥ 1`, the Generation Loop raises
`MCQGenerationError` exactly when zero questions were accepted at loop exit;
with at least one accepted it returns the accepted list unchanged (partial
or full), and in particular with all `n` accepted it returns the full list.
(The restriction to `n ≥ 1` is necessary: see the counterexample.) -/
theorem generation_error_iff_zero_accepted (cfg : GenerationConfig)
    (respond : Nat → Except String String) (uuid : Nat → String)
    (mt st : String) (d : DifficultyLevel) (n : Nat) (ts : Option String)
    (hn : 1 ≤ n) :
    ((∃ e, generate_mcqs cfg respond uuid mt st d n ts = Except.error e) ↔
      (generation_run cfg respond uuid mt st d n ts).1 = []) ∧
    ((generation_run cfg respond uuid mt st d n ts).1 ≠ [] →
      generate_mcqs cfg respond uuid mt st d n ts
        = Except.ok (generation_run cfg respond uuid mt st d n ts).1) ∧
    ((generation_run cfg respond uuid mt st d n ts).1.length = n →
      generate_mcqs cfg respond uuid mt st d n ts
        = Except.ok (generation_run cfg respond uuid mt st d n ts).1) := by
  rw [generate_mcqs]
  by_cases h0 : (generation_run cfg respond uuid mt st d n ts).1.length = 0
  · rw [if_pos h0]
    refine ⟨⟨fun _ => List.length_eq_zero.mp h0, fun _ => ⟨_, rfl⟩⟩, ?_, ?_⟩
    · intro hne
      exact absurd (List.length_eq_zero.mp h0) hne
    · intro hlen
      omega
  · rw [if_neg h0]
    refine ⟨⟨?_, ?_⟩, fun _ => rfl, fun _ => rfl⟩
    · rintro ⟨e, he⟩
      exact absurd he (by simp)
    · intro hnil
      exact absurd (by rw [hnil]; rfl) h0

/-- Claim C5, counterexample to the claim as stated, at `n = 0`: the budget
is `0` attempts, zero of the requested zero questions are accepted — so all
`N` requested questions are accepted — yet the loop raises
`MCQGenerationError` instead of returning the (empty) full list. -/
theorem generation_error_counterexample :
    (generation_run {} (fun _ => Except.error ("down")) (fun _ => "id")
        ("T") ("S") DifficultyLevel.EASY 0 none).1.length = 0 ∧
    generate_mcqs {} (fun _ => Except.error ("down")) (fun _ => "id")
        ("T") ("S") DifficultyLevel.EASY 0 none
      = Except.error ("Failed to generate any valid questions after 0 attempts") :=
  ⟨rfl, rfl⟩

/-- Witness for C5 at a concrete input with one accepted question: a stub
whose single response carries one valid record returns `.ok` with that
record, and the error-iff-empty equivalence holds there. -/
theorem generation_error_iff_witness :
    ((∃ e, generate_mcqs {} (fun _ => Except.ok
        ("[\x7b\"question_text_en\": \"What is the boiling point of water at sea level in Celsius?\", \"option_a_en\": \"100\", \"option_b_en\": \"90\", \"option_c_en\": \"80\", \"option_d_en\": \"70\", \"correct_answer\": \"A\", \"explanation\": \"Water boils at 100 degrees Celsius at one atmosphere.\", \"references\": [\"NCERT Chemistry\"]\x7d]"))
        (fun _ => "id") ("T") ("S") DifficultyLevel.EASY 1 none
          = Except.error e) ↔
      (generation_run {} (fun _ => Except.ok
        ("[\x7b\"question_text_en\": \"What is the boiling point of water at sea level in Celsius?\", \"option_a_en\": \"100\", \"option_b_en\": \"90\", \"option_c_en\": \"80\", \"option_d_en\": \"70\", \"correct_answer\": \"A\", \"explanation\": \"Water boils at 100 degrees Celsius at one atmosphere.\", \"references\": [\"NCERT Chemistry\"]\x7d]"))
        (fun _ => "id") ("T") ("S") DifficultyLevel.EASY 1 none).1 = []) ∧
    ((generation_run {} (fun _ => Except.ok
        ("[\x7b\"question_text_en\": \"What is the boiling point of water at sea level in Celsius?\", \"option_a_en\": \"100\", \"option_b_en\": \"90\", \"option_c_en\": \"80\", \"option_d_en\": \"70\", \"correct_answer\": \"A\", \"explanation\": \"Water boils at 100 degrees Celsius at one atmosphere.\", \"references\": [\"NCERT Chemistry\"]\x7d]"))
        (fun _ => "id") ("T") ("S") DifficultyLevel.EASY 1 none).1 ≠ [] →
      generate_mcqs {} (fun _ => Except.ok
        ("[\x7b\"question_text_en\": \"What is the boiling point of water at sea level in Celsius?\", \"option_a_en\": \"100\", \"option_b_en\": \"90\", \"option_c_en\": \"80\", \"option_d_en\": \"70\", \"correct_answer\": \"A\", \"explanation\": \"Water boils at 100 degrees Celsius at one atmosphere.\", \"references\": [\"NCERT Chemistry\"]\x7d]"))
        (fun _ => "id") ("T") ("S") DifficultyLevel.EASY 1 none
        = Except.ok (generation_run {} (fun _ => Except.ok
        ("[\x7b\"question_text_en\": \"What is the boiling point of water at sea level in Celsius?\", \"option_a_en\": \"100\", \"option_b_en\": \"90\", \"option_c_en\": \"80\", \"option_d_en\": \"70\", \"correct_answer\": \"A\", \"explanation\": \"Water boils at 100 degrees Celsius at one atmosphere.\", \"references\": [\"NCERT Chemistry\"]\x7d]"))
        (fun _ => "id") ("T") ("S") DifficultyLevel.EASY 1 none).1) ∧
    ((generation_run {} (fun _ => Except.ok
        ("[\x7b\"question_text_en\": \"What is the boiling point of water at sea level in Celsius?\", \"option_a_en\": \"100\", \"option_b_en\": \"90\", \"option_c_en\": \"80\", \"option_d_en\": \"70\", \"correct_answer\": \"A\", \"explanation\": \"Water boils at 100 degrees Celsius at one atmosphere.\", \"references\": [\"NCERT Chemistry\"]\x7d]"))
        (fun _ => "id") ("T") ("S") DifficultyLevel.EASY 1 none).1.length = 1 →
      generate_mcqs {} (fun _ => Except.ok
        ("[\x7b\"question_text_en\": \"What is the boiling point of water at sea level in Celsius?\", \"option_a_en\": \"100\", \"option_b_en\": \"90\", \"option_c_en\": \"80\", \"option_d_en\": \"70\", \"correct_answer\": \"A\", \"explanation\": \"Water boils at 100 degrees Celsius at one atmosphere.\", \"references\": [\"NCERT Chemistry\"]\x7d]"))
        (fun _ => "id") ("T") ("S") DifficultyLevel.EASY 1 none
        = Except.ok (generation_run {} (fun _ => Except.ok
        ("[\x7b\"question_text_en\": \"What is the boiling point of water at sea level in Celsius?\", \"option_a_en\": \"100\", \"option_b_en\": \"90\", \"option_c_en\": \"80\", \"option_d_en\": \"70\", \"correct_answer\": \"A\", \"explanation\": \"Water boils at 100 degrees Celsius at one atmosphere.\", \"references\": [\"NCERT Chemistry\"]\x7d]"))
        (fun _ => "id") ("T") ("S") DifficultyLevel.EASY 1 none).1) :=
  generation_error_iff_zero_accepted {} (fun _ => Except.ok
        ("[\x7b\"question_text_en\": \"What is the boiling point of water at sea level in Celsius?\", \"option_a_en\": \"100\", \"option_b_en\": \"90\", \"option_c_en\": \"80\", \"option_d_en\": \"70\", \"correct_answer\": \"A\", \"explanation\": \"Water boils at 100 degrees Celsius at one atmosphere.\", \"references\": [\"NCERT Chemistry\"]\x7d]"))
    (fun _ => "id") ("T") ("S") DifficultyLevel.EASY 1 none (by decide)

theorem add_one_mem (bank : QuestionBank) (q : Question) (id : String)
    (h : id ∈ bank.used_question_ids) :
    id ∈ (bank.add_one q).used_question_ids := by
  rw [QuestionBank.add_one]
  split
  · exact h
  · exact Finset.mem_insert_of_mem h

theorem add_one_self_mem (bank : QuestionBank) (q : Question) :
    q.question_id ∈ (bank.add_one q).used_question_ids := by
  rw [QuestionBank.add_one]
  split
  · assumption
  · exact Finset.mem_insert_self _ _

theorem foldl_add_one_mem (qs : List Question) :
    ∀ (bank : QuestionBank) (id : String), id ∈ bank.used_question_ids →
      id ∈ (qs.foldl QuestionBank.add_one bank).used_question_ids := by
  induction qs with
  | nil => intro bank id h; exact h
  | cons q rest ih =>
    intro bank id h
    exact ih (bank.add_one q) id (add_one_mem bank q id h)

theorem foldl_add_one_mem_of_elem (qs : List Question) :
    ∀ (bank : QuestionBank) (q : Question), q ∈ qs →
      q.question_id ∈ (qs.foldl QuestionBank.add_one bank).used_question_ids := by
  induction qs with
  | nil => intro bank q h; exact absurd h (List.not_mem_nil q)
  | cons p rest ih =>
    intro bank q h
    rcases List.mem_cons.mp h with h | h
    · subst h
      exact foldl_add_one_mem rest (bank.add_one q) q.question_id
        (add_one_self_mem bank q)
    · exact ih (bank.add_one p) q h

theorem foldl_add_one_fixed (qs : List Question) :
    ∀ (bank : QuestionBank),
      (∀ q ∈ qs, q.question_id ∈ bank.used_question_ids) →
      qs.foldl QuestionBank.add_one bank = bank := by
  induction qs with
  | nil => intro bank _; rfl
  | cons p rest ih =>
    intro bank h
    have hp : bank.add_one p = bank := by
      rw [QuestionBank.add_one, if_pos (h p (List.mem_cons_self p rest))]
    show rest.foldl QuestionBank.add_one (bank.add_one p) = bank
    rw [hp]
    exact ih bank (fun q hq => h q (List.mem_cons_of_mem p hq))

/-- Claim C7: adding the same question list twice leaves the bank — and in
particular its persisted identifier set — exactly as after adding it once,
and any identifier already used before the batch is still in the persisted
set afterwards (a `Finset`, so it occurs exactly once). -/
theorem bank_add_idempotent (bank : QuestionBank) (qs : List Question) :
    (bank.add_questions qs).add_questions qs = bank.add_questions qs ∧
    ((bank.add_questions qs).add_questions qs).persisted_ids
      = (bank.add_questions qs).persisted_ids ∧
    (∀ id, id ∈ bank.used_question_ids →
      id ∈ (bank.add_questions qs).persisted_ids) := by
  have hfix : qs.foldl QuestionBank.add_one (bank.add_questions qs)
      = bank.add_questions qs := by
    apply foldl_add_one_fixed
    intro q hq
    exact foldl_add_one_mem_of_elem qs bank q hq
  have hmain : (bank.add_questions qs).add_questions qs = bank.add_questions qs := by
    show ({ qs.foldl QuestionBank.add_one (bank.add_questions qs) with
        persisted_ids :=
          (qs.foldl QuestionBank.add_one
            (bank.add_questions qs)).used_question_ids } : QuestionBank)
      = bank.add_questions qs
    rw [hfix]
    rfl
  refine ⟨hmain, by rw [hmain], ?_⟩
  intro id h
  exact foldl_add_one_mem qs bank id h

/-- Claim C8: even on a run whose paper-level validation reports violations,
the Paper Assembler returns the assembled paper carrying the full
concatenated question list, the report is exactly that paper's validation
output, and the full list is registered with the Question Bank — validation
is advisory, never a gate. -/
theorem build_paper_advisory (bank : QuestionBank)
    (paper_id created_at : String) (config : PaperConfig)
    (sections : List PaperSection) (gen : PaperSection → List Question)
    (hviol : (build_paper bank paper_id created_at config sections gen).2.2 ≠ []) :
    (build_paper bank paper_id created_at config sections gen).1.questions
      = (sections.map gen).flatten ∧
    (build_paper bank paper_id created_at config sections gen).2.2
      = (build_paper bank paper_id created_at config sections gen).1.validate ∧
    (build_paper bank paper_id created_at config sections gen).2.1
      = bank.add_questions ((sections.map gen).flatten) :=
  ⟨rfl, rfl, rfl⟩

/-- Witness for C8 at a concrete input: one empty section, so validation
reports a violation, and the (empty) question list is still returned and
registered. -/
theorem build_paper_advisory_witness :
    (build_paper ⟨∅, [], ∅⟩ ("p1") ("now")
        ⟨"Paper", "Subj", 0, [], []⟩
        [⟨"Sec", 0, [], []⟩] (fun _ => [])).2.2 ≠ [] ∧
    (build_paper ⟨∅, [], ∅⟩ ("p1") ("now")
        ⟨"Paper", "Subj", 0, [], []⟩
        [⟨"Sec", 0, [], []⟩] (fun _ => [])).1.questions
      = (([⟨"Sec", 0, [], []⟩] : List PaperSection).map (fun _ => [])).flatten ∧
    (build_paper ⟨∅, [], ∅⟩ ("p1") ("now")
        ⟨"Paper", "Subj", 0, [], []⟩
        [⟨"Sec", 0, [], []⟩] (fun _ => [])).2.2
      = (build_paper ⟨∅, [], ∅⟩ ("p1") ("now")
        ⟨"Paper", "Subj", 0, [], []⟩
        [⟨"Sec", 0, [], []⟩] (fun _ => [])).1.validate ∧
    (build_paper ⟨∅, [], ∅⟩ ("p1") ("now")
        ⟨"Paper", "Subj", 0, [], []⟩
        [⟨"Sec", 0, [], []⟩] (fun _ => [])).2.1
      = QuestionBank.add_questions ⟨∅, [], ∅⟩
          (([⟨"Sec", 0, [], []⟩] : List PaperSection).map (fun _ => [])).flatten := by
  have h : (build_paper ⟨∅, [], ∅⟩ ("p1") ("now")
      ⟨"Paper", "Subj", 0, [], []⟩
      [⟨"Sec", 0, [], []⟩] (fun _ => [])).2.2 ≠ [] := by
    decide
  obtain ⟨h1, h2, h3⟩ := build_paper_advisory ⟨∅, [], ∅⟩ ("p1") ("now")
    ⟨"Paper", "Subj", 0, [], []⟩ [⟨"Sec", 0, [], []⟩] (fun _ => []) h
  exact ⟨h, h1, h2, h3⟩

theorem buildTopics_stamps
    (txtGen : String → String → String → DifficultyLevel → Nat →
      Except String (List Question))
    (mmGen : TextImagePair → String → String → String → DifficultyLevel →
      Nat → Except String (List Question))
    (diagram_pairs : List TextImagePair) (sectionName subject : String)
    (qpt remainder : Nat) (difficulty : DifficultyLevel) :
    ∀ (topics : List TopicSpec) (i : Nat),
      buildTopics txtGen mmGen diagram_pairs sectionName subject qpt remainder
        difficulty i topics
      = (buildTopicsRaw txtGen mmGen diagram_pairs subject qpt remainder
          difficulty i topics).map (List.map (stampSection sectionName)) := by
  intro topics
  induction topics with
  | nil => intro i; rfl
  | cons spec rest ih =>
    intro i
    rw [buildTopics, buildTopicsRaw]
    by_cases hz : qpt + (if i < remainder then 1 else 0) = 0
    · rw [if_pos hz, if_pos hz, ih]
    · rw [if_neg hz, if_neg hz]
      cases htg : topicGenerate txtGen mmGen diagram_pairs subject
          (spec.main_topic.getD ("General")) (spec.subtopic.getD ("General"))
          difficulty (qpt + (if i < remainder then 1 else 0)) with
      | error e => rfl
      | ok topic_questions =>
        rw [ih]
        cases hrec : buildTopicsRaw txtGen mmGen diagram_pairs subject qpt
            remainder difficulty (i + 1) rest with
        | error e => rfl
        | ok later =>
          show Except.ok
              ((topic_questions.map (stampSection sectionName))
                ++ later.map (stampSection sectionName))
            = Except.ok ((topic_questions ++ later).map
                (stampSection sectionName))
          rw [List.map_append]

theorem buildBands_stamps
    (txtGen : String → String → String → DifficultyLevel → Nat →
      Except String (List Question))
    (mmGen : TextImagePair → String → String → String → DifficultyLevel →
      Nat → Except String (List Question))
    (diagram_pairs : List TextImagePair) (sectionName subject : String)
    (topics : List TopicSpec) :
    ∀ bands : List (String × Nat),
      buildBands txtGen mmGen diagram_pairs sectionName subject topics bands
      = (buildBandsRaw txtGen mmGen diagram_pairs subject topics bands).map
          (List.map (stampSection sectionName)) := by
  intro bands
  induction bands with
  | nil => rfl
  | cons band rest ih =>
    obtain ⟨difficulty_str, count⟩ := band
    rw [buildBands, buildBandsRaw]
    by_cases hz : count = 0
    · rw [if_pos hz, if_pos hz, ih]
    · rw [if_neg hz, if_neg hz]
      cases hdl : DifficultyLevel.fromName difficulty_str.toUpper with
      | none => rfl
      | some difficulty =>
        dsimp only
        by_cases ht : topics.length = 0
        · rw [if_pos ht, if_pos ht, ih]
        · rw [if_neg ht, if_neg ht]
          rw [buildTopics_stamps]
          cases hbt : buildTopicsRaw txtGen mmGen diagram_pairs subject
              (count / topics.length) (count % topics.length) difficulty
              0 topics with
          | error e => rfl
          | ok bandQs =>
            rw [ih]
            cases hrec : buildBandsRaw txtGen mmGen diagram_pairs subject
                topics rest with
            | error e => rfl
            | ok later =>
              show Except.ok
                  ((bandQs.map (stampSection sectionName))
                    ++ later.map (stampSection sectionName))
                = Except.ok ((bandQs ++ later).map (stampSection sectionName))
              rw [List.map_append]

/-- Claim C9: the Section Builder's output is exactly the un-stamped
generation outcome with every question's section-name field overwritten by
the section's configured name — so on success every returned question
carries the section's name, and no other field differs from what the
generators produced (whether a question came from multimodal generation,
the text-only fallback after a multimodal failure, or plain text-only
generation). -/
theorem build_section_stamps
    (txtGen : String → String → String → DifficultyLevel → Nat →
      Except String (List Question))
    (mmGen : TextImagePair → String → String → String → DifficultyLevel →
      Nat → Except String (List Question))
    (sec : PaperSection) (subject : String)
    (diagram_pairs : List TextImagePair) :
    _build_section txtGen mmGen sec subject diagram_pairs
      = (buildBandsRaw txtGen mmGen diagram_pairs subject sec.topics
          sec.difficulty_distribution).map
          (List.map (stampSection sec.name)) ∧
    (∀ l, _build_section txtGen mmGen sec subject diagram_pairs = Except.ok l →
      ∀ q ∈ l, q.test_section = sec.name) := by
  have hmain := buildBands_stamps txtGen mmGen diagram_pairs sec.name subject
    sec.topics sec.difficulty_distribution
  refine ⟨hmain, ?_⟩
  intro l hl q hq
  rw [_build_section, hmain] at hl
  cases hraw : buildBandsRaw txtGen mmGen diagram_pairs subject sec.topics
      sec.difficulty_distribution with
  | error e => rw [hraw] at hl; exact absurd hl (by simp [Except.map])
  | ok raw =>
    rw [hraw] at hl
    have hl2 : raw.map (stampSection sec.name) = l := by
      have : (Except.ok raw : Except String (List Question)).map
          (List.map (stampSection sec.name)) = Except.ok
          (raw.map (stampSection sec.name)) := rfl
      rw [this] at hl
      exact (Except.ok.injEq _ _).mp hl
    rw [← hl2] at hq
    obtain ⟨r, _, hr⟩ := List.mem_map.mp hq
    rw [← hr]
    rfl

/-- Witness for C3 at a concrete band: 7 questions over 3 topics give the
first topic 3 and the other two 2 each, summing to 7. -/
theorem topic_count_partition_witness :
    (∀ i, i < 7 % 3 → topic_count 7 3 i = 7 / 3 + 1) ∧
    (∀ i, 7 % 3 ≤ i → topic_count 7 3 i = 7 / 3) ∧
    (∑ i ∈ Finset.range 3, topic_count 7 3 i) = 7 ∧
    (∀ i j, topic_count 7 3 i ≤ topic_count 7 3 j + 1) :=
  topic_count_partition 7 3 (by decide)

/-- Witness for C10 at a concrete distribution: Easy 50%, Medium 30%,
Hard 20% of 10 questions sum back to 10 (Hard takes the remainder). -/
theorem get_difficulty_counts_sum_witness :
    ((PaperConfig.get_difficulty_counts
      ⟨"P", "S", 10, [],
        [("Easy", (1 : Rat) / 2), ("Medium", (3 : Rat) / 10),
         ("Hard", (1 : Rat) / 5)]⟩ 10).map Prod.snd).sum = 10 :=
  get_difficulty_counts_sum
    ⟨"P", "S", 10, [],
      [("Easy", (1 : Rat) / 2), ("Medium", (3 : Rat) / 10),
       ("Hard", (1 : Rat) / 5)]⟩ 10
    (by simp) (by simp)

/-- Witness for C6 at a concrete response: the two-record array
`["alpha","beta"]` surrounded by prose parses to exactly those records, also
with a trailing comma before the closing bracket. -/
theorem parse_llm_response_roundtrip_witness :
    _parse_llm_response ("Sure! Here are the questions: " ++
        String.mk (jsonSer (.arr [.str ("alpha"), .str ("beta")])) ++
        " Hope this helps.")
      = .ok [.str ("alpha"), .str ("beta")] ∧
    (noCommaBracket (serItems [.str ("alpha"), .str ("beta")]) = true →
      _parse_llm_response ("Sure! Here are the questions: " ++
          String.mk ('[' :: serItems [.str ("alpha"), .str ("beta")] ++
            [',', ']']) ++
          " Hope this helps.")
        = .ok [.str ("alpha"), .str ("beta")]) :=
  parse_llm_response_roundtrip [.str ("alpha"), .str ("beta")]
    ("Sure! Here are the questions: ") (" Hope this helps.")
    (by simp [JWFItems, JWF]) (by decide) (by decide)

end QuizWhiz
